import Mathlib

/-!
Shallow embedding of the Firecracker workspace service core
(`workspace_service/sandbox_manager.py`, `workspace_service/config.py`,
`guest_agent/agent.py`, `workspace_service/main.py`) together with proofs
about its admission checks, lifecycle state machine, on-disk persistence,
vsock CID allocation, guest file reads and RPC framing.

Machine integers are modelled as `Int` (Python integers are unbounded),
sizes and counts as `Nat`.  Filesystem directories are modelled as lists of
entries.  Fallible operations return `Except`-style outcomes together with
the mutated manager state, mirroring the side effects the Python code has
performed by the time it raises.
-/

namespace Workspace

/-- Sandbox status values used by the manager ("running", "paused", "stopped"). -/
inductive Status where
  | running
  | paused
  | stopped
deriving DecidableEq

/-- Embeds the dataclass `SandboxConfig` of `sandbox_manager.py`. -/
structure SandboxConfig where
  sandbox_id : String
  template : String
  memory_mb : Int
  vcpu_count : Int
  workspace_id : String
  status : Status
  created_at : String
  ip_address : Option String := none
  vsock_cid : Option Int := none
  firecracker_pid : Option Int := none
deriving DecidableEq

/-- The fields of `ServiceConfig` (config.py) that the sandbox manager reads.
`total_memory_budget_mb` is the derived property (MemTotal minus reserved);
its environment-dependent value is modelled as a plain field. -/
structure ServiceConfig where
  default_memory_mb : Int
  min_memory_mb : Int
  max_memory_mb : Int
  default_vcpu_count : Int
  min_vcpu_count : Int
  max_vcpu_count : Int
  max_sandboxes : Int
  total_memory_budget_mb : Int
deriving DecidableEq

/-- One sub-directory of `SANDBOXES_DIR`: its name (the sandbox id) and the
content of its `state.json`, when that file exists. -/
structure SandboxDir where
  id : String
  state : Option SandboxConfig
deriving DecidableEq

/-- The manager's mutable state: the in-memory table `_active_sandboxes`,
the `_next_vsock_cid` cursor, the sandbox directories on disk, and the ids
owning a snapshot directory under `SNAPSHOTS_DIR`. -/
structure ManagerState where
  table : List SandboxConfig
  nextVsockCid : Int
  dirs : List SandboxDir
  snapshots : List String
deriving DecidableEq

/-- State of a freshly started manager on an empty disk
(`_active_sandboxes = {}`, `_next_vsock_cid = 3`). -/
def initialState : ManagerState :=
  { table := [], nextVsockCid := 3, dirs := [], snapshots := [] }

/-- `active_sandbox_count`: `len(self._active_sandboxes)`. -/
def activeSandboxCount (st : ManagerState) : Nat := st.table.length

/-- `memory_used_mb`: sum of `memory_mb` over table entries whose status is
running. -/
def memoryUsedMb (st : ManagerState) : Int :=
  ((st.table.filter (fun s => s.status == Status.running)).map
    SandboxConfig.memory_mb).sum

/-- `memory_available_mb`: budget minus used. -/
def memoryAvailableMb (cfg : ServiceConfig) (st : ManagerState) : Int :=
  cfg.total_memory_budget_mb - memoryUsedMb st

/-- Reason string of the sandbox-count check in `can_create_sandbox`. -/
def maxLimitReason (cfg : ServiceConfig) : String :=
  "Maximum sandbox limit reached (" ++ toString cfg.max_sandboxes ++ ")"

/-- Reason string of the available-memory check in `can_create_sandbox`. -/
def insufficientReason (m avail : Int) : String :=
  "Insufficient memory: requested " ++ toString m ++ "MB, available " ++
    toString avail ++ "MB"

/-- Reason string of the minimum-memory check in `can_create_sandbox`. -/
def memoryLowReason (cfg : ServiceConfig) : String :=
  "Memory too low: minimum is " ++ toString cfg.min_memory_mb ++ "MB"

/-- Reason string of the maximum-memory check in `can_create_sandbox`. -/
def memoryHighReason (cfg : ServiceConfig) : String :=
  "Memory too high: maximum is " ++ toString cfg.max_memory_mb ++ "MB"

/-- `SandboxManager.can_create_sandbox`: the admission check, with the checks
in the order the source applies them: sandbox-count limit, available memory,
per-sandbox minimum, per-sandbox maximum. -/
def canCreateSandbox (cfg : ServiceConfig) (st : ManagerState) (memory_mb : Int) :
    Bool × String :=
  if (activeSandboxCount st : Int) ≥ cfg.max_sandboxes then
    (false, maxLimitReason cfg)
  else if memory_mb > memoryAvailableMb cfg st then
    (false, insufficientReason memory_mb (memoryAvailableMb cfg st))
  else if memory_mb < cfg.min_memory_mb then
    (false, memoryLowReason cfg)
  else if memory_mb > cfg.max_memory_mb then
    (false, memoryHighReason cfg)
  else
    (true, "")

/-- Modelled from the spec: the admission check with the check order the spec
claims (count limit, then the min/max range, then available memory).  Used
only to compare the spec's claimed order against `canCreateSandbox`. -/
def canAdmitSpecOrder (cfg : ServiceConfig) (st : ManagerState) (memory_mb : Int) :
    Bool × String :=
  if (activeSandboxCount st : Int) ≥ cfg.max_sandboxes then
    (false, maxLimitReason cfg)
  else if memory_mb < cfg.min_memory_mb then
    (false, memoryLowReason cfg)
  else if memory_mb > cfg.max_memory_mb then
    (false, memoryHighReason cfg)
  else if memory_mb > memoryAvailableMb cfg st then
    (false, insufficientReason memory_mb (memoryAvailableMb cfg st))
  else
    (true, "")

/-- Number of table entries whose status is running or paused (the spec's
`live_count`). -/
def liveCount (st : ManagerState) : Nat :=
  (st.table.filter (fun s =>
    s.status == Status.running || s.status == Status.paused)).length

/-- Errors raised by the manager: `ValueError`, `FileNotFoundError`, and the
bare `Exception`s of `create_sandbox`/`resume_sandbox`/`_call_firecracker_api`. -/
inductive SbxError where
  | valueError (msg : String)
  | fileNotFound (msg : String)
  | exn (msg : String)
deriving DecidableEq

/-- Pythonic `x or d` for an `Optional[int]` argument: `None` and `0` are
falsy and replaced by the default. -/
def pyOrInt (x : Option Int) (d : Int) : Int :=
  match x with
  | none => d
  | some v => if v = 0 then d else v

/-- Pythonic `x or d` for an `Optional[str]` argument: `None` and the empty
string are falsy and replaced by the default. -/
def pyOrStr (x : Option String) (d : String) : String :=
  match x with
  | none => d
  | some v => if v = "" then d else v

/-- `self._active_sandboxes.get(sandbox_id)`: first entry with the given key. -/
def lookupSandbox (table : List SandboxConfig) (id : String) : Option SandboxConfig :=
  match table with
  | [] => none
  | s :: t => if s.sandbox_id = id then some s else lookupSandbox t id

/-- `self._active_sandboxes[id] = r` on the dict, keyed by `sandbox_id`:
replaces an existing entry, otherwise appends. -/
def insertTable (table : List SandboxConfig) (r : SandboxConfig) : List SandboxConfig :=
  if ∃ s ∈ table, s.sandbox_id = r.sandbox_id then
    table.map (fun s => if s.sandbox_id = r.sandbox_id then r else s)
  else table ++ [r]

/-- In-place mutation of the dict entry with the given id. -/
def updateTable (id : String) (f : SandboxConfig → SandboxConfig) :
    List SandboxConfig → List SandboxConfig
  | [] => []
  | s :: t => (if s.sandbox_id = id then f s else s) :: updateTable id f t

/-- `del self._active_sandboxes[id]`. -/
def removeTable (id : String) : List SandboxConfig → List SandboxConfig
  | [] => []
  | s :: t => if s.sandbox_id = id then removeTable id t else s :: removeTable id t

/-- `sandbox_dir.mkdir(parents=True, exist_ok=True)`. -/
def mkdirSandboxDir (dirs : List SandboxDir) (id : String) : List SandboxDir :=
  if ∃ d ∈ dirs, d.id = id then dirs else dirs ++ [⟨id, none⟩]

/-- `shutil.rmtree(sandbox_dir)`. -/
def removeDir (id : String) : List SandboxDir → List SandboxDir
  | [] => []
  | d :: ds => if d.id = id then removeDir id ds else d :: removeDir id ds

/-- `state_file.write_text(json.dumps(asdict(config)))` into the sandbox
directory of the given id. -/
def writeStateFile (id : String) (r : SandboxConfig) : List SandboxDir → List SandboxDir
  | [] => []
  | d :: ds => (if d.id = id then ⟨d.id, some r⟩ else d) :: writeStateFile id r ds

/-- `snapshot_dir.mkdir(parents=True, exist_ok=True)` under `SNAPSHOTS_DIR`. -/
def addSnapshotDir (snaps : List String) (id : String) : List String :=
  if id ∈ snaps then snaps else snaps ++ [id]

/-- The records persisted in `state.json` files of the sandbox directories. -/
def loadableOf (dirs : List SandboxDir) : List SandboxConfig :=
  dirs.filterMap SandboxDir.state

/-- Environment outcomes a `create_sandbox` call can encounter: whether the
kernel and base rootfs artifacts exist, whether the hypervisor control socket
appears within the boot timeout, and whether the hypervisor API sequence
succeeds. -/
structure CreateEnv where
  kernelExists : Bool
  baseRootfsExists : Bool
  socketReady : Bool
  apiOk : Bool
deriving DecidableEq

/-- Error message of the vCPU minimum check in `create_sandbox`. -/
def vcpuLowReason (cfg : ServiceConfig) : String :=
  "vCPU count too low: minimum is " ++ toString cfg.min_vcpu_count

/-- Error message of the vCPU maximum check in `create_sandbox`. -/
def vcpuHighReason (cfg : ServiceConfig) : String :=
  "vCPU count too high: maximum is " ++ toString cfg.max_vcpu_count

/-- `SandboxManager.create_sandbox`.  `freshId` stands for the generated
`uuid4` token, `pid` for the spawned hypervisor subprocess id, `createdAt`
for the timestamp.  Directory-root prefixes of the artifact paths in error
messages are elided.  The result pairs the raised-or-returned outcome with
the manager state (table, CID cursor, disk) at that point. -/
def createSandbox (cfg : ServiceConfig) (st : ManagerState) (template : String)
    (memoryArg vcpuArg : Option Int) (workspaceArg : Option String)
    (freshId : String) (pid : Int) (createdAt : String) (env : CreateEnv) :
    Except SbxError SandboxConfig × ManagerState :=
  let memory_mb := pyOrInt memoryArg cfg.default_memory_mb
  let vcpu_count := pyOrInt vcpuArg cfg.default_vcpu_count
  if vcpu_count < cfg.min_vcpu_count then
    (Except.error (SbxError.valueError (vcpuLowReason cfg)), st)
  else if vcpu_count > cfg.max_vcpu_count then
    (Except.error (SbxError.valueError (vcpuHighReason cfg)), st)
  else if (canCreateSandbox cfg st memory_mb).1 then
    let workspace_id := pyOrStr workspaceArg freshId
    if env.kernelExists = false then
      (Except.error (SbxError.fileNotFound
        ("Kernel not found: " ++ template ++ "-vmlinux.bin")), st)
    else
      let dirs1 := mkdirSandboxDir st.dirs freshId
      if env.baseRootfsExists = false then
        (Except.error (SbxError.fileNotFound
          ("Base rootfs not found: " ++ template ++ "-rootfs.ext4")),
          { st with dirs := dirs1 })
      else
        let cid := st.nextVsockCid
        let st2 : ManagerState :=
          { st with dirs := dirs1, nextVsockCid := st.nextVsockCid + 1 }
        if env.socketReady = false then
          (Except.error (SbxError.exn "Firecracker socket not ready after 5 seconds"),
            st2)
        else if env.apiOk = false then
          (Except.error (SbxError.exn "Failed to configure VM"),
            { st2 with dirs := removeDir freshId st2.dirs })
        else
          let record : SandboxConfig :=
            { sandbox_id := freshId, template := template, memory_mb := memory_mb,
              vcpu_count := vcpu_count, workspace_id := workspace_id,
              status := Status.running, created_at := createdAt,
              ip_address := none, vsock_cid := some cid,
              firecracker_pid := some pid }
          (Except.ok record,
            { st2 with dirs := writeStateFile freshId record st2.dirs,
                       table := insertTable st2.table record })
  else
    (Except.error (SbxError.valueError (canCreateSandbox cfg st memory_mb).2), st)

instance {ε α : Type} [DecidableEq ε] [DecidableEq α] : DecidableEq (Except ε α) :=
  fun a b =>
    match a, b with
    | Except.error e₁, Except.error e₂ =>
        if h : e₁ = e₂ then Decidable.isTrue (by rw [h])
        else Decidable.isFalse (by intro hc; injection hc; contradiction)
    | Except.ok v₁, Except.ok v₂ =>
        if h : v₁ = v₂ then Decidable.isTrue (by rw [h])
        else Decidable.isFalse (by intro hc; injection hc; contradiction)
    | Except.error _, Except.ok _ => Decidable.isFalse (by intro hc; cases hc)
    | Except.ok _, Except.error _ => Decidable.isFalse (by intro hc; cases hc)

/-- Outcome of `pause_sandbox` / `resume_sandbox`: the raised-or-returned
result, the manager state afterwards, and the Firecracker API calls that
were issued along the way. -/
structure OpOutcome where
  result : Except SbxError Unit
  state : ManagerState
  hypCalls : List String
deriving DecidableEq

/-- `SandboxManager.pause_sandbox`.  `hypOk` is the outcome of the hypervisor
pause/snapshot API calls.  The only precondition the source checks is that
the id is present in the table; the sandbox status is never examined. -/
def pauseSandbox (st : ManagerState) (id : String) (hypOk : Bool) : OpOutcome :=
  match lookupSandbox st.table id with
  | none =>
      ⟨Except.error (SbxError.valueError ("Sandbox not found: " ++ id)), st, []⟩
  | some _ =>
      let snaps := addSnapshotDir st.snapshots id
      if hypOk = false then
        ⟨Except.error (SbxError.exn "Firecracker API error on /vm"),
          { st with snapshots := snaps }, ["PATCH /vm"]⟩
      else
        let table1 := updateTable id (fun s => { s with status := Status.paused }) st.table
        let dirs1 :=
          match lookupSandbox table1 id with
          | some r => writeStateFile id r st.dirs
          | none => st.dirs
        ⟨Except.ok (), { st with table := table1, dirs := dirs1, snapshots := snaps },
          ["PATCH /vm", "PUT /snapshot/create"]⟩

/-- `SandboxManager.resume_sandbox`.  Requires presence in the table and a
snapshot directory; `socketReady` and `apiOk` are the environment outcomes of
the hypervisor respawn and the snapshot-load call. -/
def resumeSandbox (st : ManagerState) (id : String) (newPid : Int)
    (socketReady apiOk : Bool) : OpOutcome :=
  match lookupSandbox st.table id with
  | none =>
      ⟨Except.error (SbxError.valueError ("Sandbox not found: " ++ id)), st, []⟩
  | some _ =>
      if id ∈ st.snapshots then
        if socketReady = false then
          ⟨Except.error (SbxError.exn "Firecracker socket not ready"), st, []⟩
        else if apiOk = false then
          ⟨Except.error (SbxError.exn "Firecracker API error on /snapshot/load"),
            st, ["PUT /snapshot/load"]⟩
        else
          let table1 := updateTable id
            (fun s => { s with status := Status.running, firecracker_pid := some newPid })
            st.table
          let dirs1 :=
            match lookupSandbox table1 id with
            | some r => writeStateFile id r st.dirs
            | none => st.dirs
          ⟨Except.ok (), { st with table := table1, dirs := dirs1 },
            ["PUT /snapshot/load"]⟩
      else
        ⟨Except.error (SbxError.fileNotFound ("Snapshot not found for sandbox: " ++ id)),
          st, []⟩

/-- `SandboxManager.destroy_sandbox`: removes the sandbox directory tree and
the table entry.  The snapshot directory under `SNAPSHOTS_DIR` is not
touched. -/
def destroySandbox (st : ManagerState) (id : String) : ManagerState :=
  { st with table := removeTable id st.table, dirs := removeDir id st.dirs }

/-- One step of the CID-cursor update loop in `_load_existing_sandboxes`:
`if config.vsock_cid and config.vsock_cid >= self._next_vsock_cid:
self._next_vsock_cid = config.vsock_cid + 1` (Python truthiness: `None` and
`0` are skipped). -/
def reloadCidStep (cur : Int) (s : SandboxConfig) : Int :=
  match s.vsock_cid with
  | some c => if c ≠ 0 ∧ c ≥ cur then c + 1 else cur
  | none => cur

/-- Daemon restart: a fresh manager running `_load_existing_sandboxes` over
the surviving disk.  Every parseable `state.json` is loaded with status
forced to stopped, and the CID cursor (starting from 3) is advanced past
every loaded truthy CID. -/
def reloadState (st : ManagerState) : ManagerState :=
  let loaded := (loadableOf st.dirs).map (fun r => { r with status := Status.stopped })
  { table := loaded, nextVsockCid := loaded.foldl reloadCidStep 3,
    dirs := st.dirs, snapshots := st.snapshots }

/-- States reachable from a fresh daemon on an empty disk by any sequence of
admitted operations (create, pause, resume, destroy, daemon restart).  The
freshness side conditions on `create` model the uniqueness of the generated
uuid token. -/
inductive Reachable (cfg : ServiceConfig) : ManagerState → Prop where
  | init : Reachable cfg initialState
  | create {st : ManagerState} (h : Reachable cfg st) (template : String)
      (memoryArg vcpuArg : Option Int) (workspaceArg : Option String)
      (freshId : String) (pid : Int) (createdAt : String) (env : CreateEnv)
      (hfreshDir : ∀ d ∈ st.dirs, d.id ≠ freshId)
      (hfreshTab : ∀ s ∈ st.table, s.sandbox_id ≠ freshId) :
      Reachable cfg (createSandbox cfg st template memoryArg vcpuArg workspaceArg
        freshId pid createdAt env).2
  | pause {st : ManagerState} (h : Reachable cfg st) (id : String) (hypOk : Bool) :
      Reachable cfg (pauseSandbox st id hypOk).state
  | resume {st : ManagerState} (h : Reachable cfg st) (id : String) (newPid : Int)
      (socketReady apiOk : Bool) :
      Reachable cfg (resumeSandbox st id newPid socketReady apiOk).state
  | destroy {st : ManagerState} (h : Reachable cfg st) (id : String) :
      Reachable cfg (destroySandbox st id)
  | reload {st : ManagerState} (h : Reachable cfg st) :
      Reachable cfg (reloadState st)

/-! Guest agent (`guest_agent/agent.py`): file reads and base64. -/

/-- The base64 standard alphabet used by `base64.b64encode`. -/
def b64Alphabet : List Char :=
  ['A','B','C','D','E','F','G','H','I','J','K','L','M',
   'N','O','P','Q','R','S','T','U','V','W','X','Y','Z',
   'a','b','c','d','e','f','g','h','i','j','k','l','m',
   'n','o','p','q','r','s','t','u','v','w','x','y','z',
   '0','1','2','3','4','5','6','7','8','9','+','/']

/-- Character of a 6-bit group. -/
def b64Char (n : Nat) : Char := b64Alphabet.getD n '?'

/-- Base64 encoding of a byte list, three bytes per group, with `=` padding
(RFC 4648, as produced by Python `base64.b64encode`). -/
def base64Chars : List Nat → List Char
  | a :: b :: c :: rest =>
    let n := a * 65536 + b * 256 + c
    b64Char (n / 262144 % 64) :: b64Char (n / 4096 % 64) :: b64Char (n / 64 % 64) ::
      b64Char (n % 64) :: base64Chars rest
  | [a, b] =>
    let n := a * 65536 + b * 256
    [b64Char (n / 262144 % 64), b64Char (n / 4096 % 64), b64Char (n / 64 % 64), '=']
  | [a] =>
    let n := a * 65536
    [b64Char (n / 262144 % 64), b64Char (n / 4096 % 64), '=', '=']
  | [] => []

/-- `base64.b64encode(bytes).decode()`. -/
def base64Encode (bytes : List Nat) : String := String.mk (base64Chars bytes)

/-- A node of the guest filesystem: a regular file with its raw bytes, or a
directory. -/
inductive GuestNode where
  | file (bytes : List Nat)
  | dir
deriving DecidableEq

/-- The guest filesystem, as a path-keyed association list. -/
abbrev GuestFs := List (String × GuestNode)

/-- Path lookup in the guest filesystem. -/
def fsLookup (fs : GuestFs) (path : String) : Option GuestNode :=
  (fs.find? (fun e => e.1 == path)).map Prod.snd

/-- The JSON dict `GuestAgent.handle_read_file` returns. -/
structure ReadFileResponse where
  success : Bool
  content : Option String
  error : Option String
  size : Option Nat
deriving DecidableEq

/-- `GuestAgent.handle_read_file`: reads the file as binary and base64
encodes the content unconditionally. -/
def handleReadFile (fs : GuestFs) (path : String) : ReadFileResponse :=
  match fsLookup fs path with
  | none => ⟨false, none, some ("File not found: " ++ path), none⟩
  | some GuestNode.dir => ⟨false, none, some ("Not a file: " ++ path), none⟩
  | some (GuestNode.file bytes) =>
      ⟨true, some (base64Encode bytes), none, some bytes.length⟩

/-- The `FileReadResponse` model of `main.py`. -/
structure FileReadResponse where
  success : Bool
  content : Option String
  error : Option String
deriving DecidableEq

/-- The `read_file` endpoint of `main.py`: passes the agent's `success`,
`content` and `error` fields through unchanged. -/
def readFileEndpoint (fs : GuestFs) (path : String) : FileReadResponse :=
  let r := handleReadFile fs path
  ⟨r.success, r.content, r.error⟩

/-! Vsock RPC framing (`VsockClient` in `sandbox_manager.py` and
`GuestAgent.handle_connection` in `agent.py`). -/

/-- `VsockClient.MAX_MESSAGE_SIZE` (10 MiB); the guest agent hardcodes the
same `10 * 1024 * 1024` bound. -/
def maxMessageSize : Nat := 10 * 1024 * 1024

/-- `int.from_bytes(bs, "big")`. -/
def intFromBytesBE (bs : List Nat) : Nat :=
  bs.foldl (fun acc b => acc * 256 + b) 0

/-- `len(data).to_bytes(4, "big")`. -/
def toBytesBE4 (n : Nat) : List Nat :=
  [n / 16777216 % 256, n / 65536 % 256, n / 256 % 256, n % 256]

/-- Sending half of `VsockClient._send_request`: the bytes written to the
socket and the outcome. -/
structure SendOutcome where
  sentBytes : List Nat
  result : Except String Unit
deriving DecidableEq

/-- `VsockClient._send_request`, sending side: the size check happens before
any byte is written. -/
def vsockSendRequest (data : List Nat) : SendOutcome :=
  if data.length > maxMessageSize then
    ⟨[], Except.error ("Message too large: " ++ toString data.length ++
      " bytes (max " ++ toString maxMessageSize ++ ")")⟩
  else
    ⟨toBytesBE4 data.length ++ data, Except.ok ()⟩

/-- Receiving half of a length-prefixed frame: how many bytes of the incoming
stream were consumed, and the outcome. -/
structure RecvOutcome where
  consumed : Nat
  result : Except String (List Nat)
deriving DecidableEq

/-- `VsockClient._send_request`, response-receiving side: reads the 4-byte
length prefix, rejects before reading the payload when the declared length
exceeds the maximum. -/
def vsockRecvResponse (incoming : List Nat) : RecvOutcome :=
  if incoming.length < 4 then ⟨incoming.length, Except.error "Connection closed"⟩
  else
    let length := intFromBytesBE (incoming.take 4)
    if length > maxMessageSize then
      ⟨4, Except.error ("Response too large: " ++ toString length ++
        " bytes (max " ++ toString maxMessageSize ++ ")")⟩
    else if (incoming.drop 4).length < length then
      ⟨incoming.length, Except.error "Connection closed"⟩
    else
      ⟨4 + length, Except.ok ((incoming.drop 4).take length)⟩

/-- `GuestAgent.handle_connection`, request frame reading: reads the 4-byte
length prefix, rejects before reading the payload when the declared length
exceeds `10 * 1024 * 1024`. -/
def agentRecvFrame (incoming : List Nat) : RecvOutcome :=
  if incoming.length < 4 then ⟨incoming.length, Except.error "Connection closed"⟩
  else
    let length := intFromBytesBE (incoming.take 4)
    if length > 10 * 1024 * 1024 then
      ⟨4, Except.error ("Message too large: " ++ toString length ++ " bytes")⟩
    else if (incoming.drop 4).length < length then
      ⟨incoming.length, Except.error "Connection closed"⟩
    else
      ⟨4 + length, Except.ok ((incoming.drop 4).take length)⟩

/-! Concrete fixtures for witnesses and counterexamples. -/

/-- A validated configuration (defaults inside the ranges, one-sandbox cap). -/
def cfgW : ServiceConfig :=
  { default_memory_mb := 512, min_memory_mb := 256, max_memory_mb := 2048,
    default_vcpu_count := 1, min_vcpu_count := 1, max_vcpu_count := 4,
    max_sandboxes := 1, total_memory_budget_mb := 12288 }

/-- Environment in which every step of a create succeeds. -/
def envOk : CreateEnv := ⟨true, true, true, true⟩

/-- Manager state after one successful create on a fresh daemon. -/
def st1W : ManagerState :=
  (createSandbox cfgW initialState "default" (some 512) (some 1) none
    "aaaa" 100 "t0" envOk).2

/-- A running sandbox holding 2000 MB. -/
def sbX : SandboxConfig :=
  { sandbox_id := "s1", template := "default", memory_mb := 2000, vcpu_count := 1,
    workspace_id := "s1", status := Status.running, created_at := "t",
    ip_address := none, vsock_cid := some 3, firecracker_pid := some 100 }

/-- A configuration with a 2300 MB budget, so that `sbX` leaves 300 MB
available. -/
def cfgX : ServiceConfig :=
  { default_memory_mb := 512, min_memory_mb := 256, max_memory_mb := 2048,
    default_vcpu_count := 1, min_vcpu_count := 1, max_vcpu_count := 4,
    max_sandboxes := 20, total_memory_budget_mb := 2300 }

/-- Manager state holding exactly `sbX`. -/
def stX : ManagerState :=
  { table := [sbX], nextVsockCid := 4, dirs := [⟨"s1", some sbX⟩], snapshots := [] }

/-! Claim C1: order of the admission checks. -/

/-- Claim C1 (amended): `can_create_sandbox` applies its checks in the order
sandbox-count limit, available memory, per-sandbox minimum, per-sandbox
maximum; the first failing check determines the reason string; and a request
of `min_memory_mb - 1` yields "Memory too low" whenever the count check and
the available-memory check pass. -/
theorem admission_check_order_and_boundary (cfg : ServiceConfig)
    (st : ManagerState) (m : Int) :
    (cfg.max_sandboxes ≤ (activeSandboxCount st : Int) →
      canCreateSandbox cfg st m = (false, maxLimitReason cfg)) ∧
    ((activeSandboxCount st : Int) < cfg.max_sandboxes →
      memoryAvailableMb cfg st < m →
      canCreateSandbox cfg st m =
        (false, insufficientReason m (memoryAvailableMb cfg st))) ∧
    ((activeSandboxCount st : Int) < cfg.max_sandboxes →
      m ≤ memoryAvailableMb cfg st → m < cfg.min_memory_mb →
      canCreateSandbox cfg st m = (false, memoryLowReason cfg)) ∧
    ((activeSandboxCount st : Int) < cfg.max_sandboxes →
      m ≤ memoryAvailableMb cfg st → cfg.min_memory_mb ≤ m →
      cfg.max_memory_mb < m →
      canCreateSandbox cfg st m = (false, memoryHighReason cfg)) ∧
    ((activeSandboxCount st : Int) < cfg.max_sandboxes →
      m ≤ memoryAvailableMb cfg st → cfg.min_memory_mb ≤ m →
      m ≤ cfg.max_memory_mb →
      canCreateSandbox cfg st m = (true, "")) ∧
    ((activeSandboxCount st : Int) < cfg.max_sandboxes →
      cfg.min_memory_mb - 1 ≤ memoryAvailableMb cfg st →
      canCreateSandbox cfg st (cfg.min_memory_mb - 1) =
        (false, memoryLowReason cfg)) := by
  refine ⟨fun h1 => ?_, fun h1 h2 => ?_, fun h1 h2 h3 => ?_,
    fun h1 h2 h3 h4 => ?_, fun h1 h2 h3 h4 => ?_, fun h1 h2 => ?_⟩ <;>
  · simp only [canCreateSandbox]
    split_ifs <;> first | rfl | (exfalso; omega)

/-- Claim C1 witness: with the one-entry state and the valid configuration, a
request of `min_memory_mb - 1` is rejected as "Memory too low". -/
theorem admission_check_order_witness :
    canCreateSandbox cfgW initialState (cfgW.min_memory_mb - 1) =
      (false, memoryLowReason cfgW) :=
  (admission_check_order_and_boundary cfgW initialState 0).2.2.2.2.2
    (by decide) (by decide)

/-- Claim C1 counterexample: for a request that exceeds both the per-sandbox
maximum (2048) and the available memory (300), the source answers
"Insufficient memory", while the check order claimed by the spec would
answer "Memory too high"; so the claimed order is not the implemented one. -/
theorem admission_order_counterexample :
    canCreateSandbox cfgX stX 4096 =
      (false, "Insufficient memory: requested 4096MB, available 300MB") ∧
    canAdmitSpecOrder cfgX stX 4096 =
      (false, "Memory too high: maximum is 2048MB") ∧
    canCreateSandbox cfgX stX 4096 ≠ canAdmitSpecOrder cfgX stX 4096 :=
  ⟨by decide, by decide, by decide⟩

/-! Claim C4: what pause actually requires. -/

/-- Result of looking up an id in a table updated entry-wise by an
id-preserving function. -/
theorem lookup_updateTable (id : String) (f : SandboxConfig → SandboxConfig)
    (hf : ∀ s, (f s).sandbox_id = s.sandbox_id) :
    ∀ t : List SandboxConfig,
      lookupSandbox (updateTable id f t) id = (lookupSandbox t id).map f := by
  intro t
  induction t with
  | nil => rfl
  | cons a t ih =>
    by_cases ha : a.sandbox_id = id
    · simp [updateTable, lookupSandbox, hf a, ha]
    · simp [updateTable, lookupSandbox, ha, ih]

/-- Claim C4 (amended): `pause_sandbox` checks only that the id is present.
A missing id raises `ValueError("Sandbox not found: ...")`; for any present
sandbox — whatever its status, including paused and stopped — the hypervisor
pause and snapshot-create calls are issued and the status is set to paused. -/
theorem pause_requires_presence_only (st : ManagerState) (id : String) :
    (lookupSandbox st.table id = none →
      pauseSandbox st id true =
        ⟨Except.error (SbxError.valueError ("Sandbox not found: " ++ id)), st, []⟩) ∧
    (∀ s, lookupSandbox st.table id = some s →
      (pauseSandbox st id true).result = Except.ok () ∧
      (pauseSandbox st id true).hypCalls = ["PATCH /vm", "PUT /snapshot/create"] ∧
      lookupSandbox (pauseSandbox st id true).state.table id =
        some { s with status := Status.paused }) := by
  constructor
  · intro h; simp [pauseSandbox, h]
  · intro s h
    have hl := lookup_updateTable id (fun x => { x with status := Status.paused })
      (fun _ => rfl) st.table
    refine ⟨?_, ?_, ?_⟩ <;> simp [pauseSandbox, h, hl]

/-- Manager state holding one paused sandbox. -/
def stPausedW : ManagerState :=
  (pauseSandbox st1W "aaaa" true).state

/-- Claim C4 witness: for the concrete paused sandbox, pause succeeds again
and issues both hypervisor calls. -/
theorem pause_requires_presence_only_witness :
    (pauseSandbox stPausedW "aaaa" true).result = Except.ok () ∧
    (pauseSandbox stPausedW "aaaa" true).hypCalls =
      ["PATCH /vm", "PUT /snapshot/create"] := by
  have h := (pause_requires_presence_only stPausedW "aaaa").2
    { sandbox_id := "aaaa", template := "default", memory_mb := 512,
      vcpu_count := 1, workspace_id := "aaaa", status := Status.paused,
      created_at := "t0", ip_address := none, vsock_cid := some 3,
      firecracker_pid := some 100 } (by decide)
  exact ⟨h.1, h.2.1⟩

/-- Claim C4 counterexample: pausing a sandbox that is already paused does
not fail with a typed invalid-state error — it succeeds and performs the
hypervisor pause/snapshot sequence. -/
theorem pause_state_check_counterexample :
    lookupSandbox stPausedW.table "aaaa" ≠ none ∧
    (lookupSandbox stPausedW.table "aaaa").map SandboxConfig.status =
      some Status.paused ∧
    (pauseSandbox stPausedW "aaaa" true).result = Except.ok () ∧
    (pauseSandbox stPausedW "aaaa" true).hypCalls ≠ [] :=
  ⟨by decide, by decide, by decide, by decide⟩

/-! Claim C5: content encoding of file reads. -/

/-- Claim C5 (amended): every successful read returns, both from the guest
agent and through the `/files/read` endpoint, the base64 encoding of the
file's raw bytes — there is no binary marking and no raw-text branch. -/
theorem read_file_content_base64 (fs : GuestFs) (path : String)
    (bytes : List Nat) (h : fsLookup fs path = some (GuestNode.file bytes)) :
    handleReadFile fs path =
      ⟨true, some (base64Encode bytes), none, some bytes.length⟩ ∧
    readFileEndpoint fs path = ⟨true, some (base64Encode bytes), none⟩ := by
  constructor <;> simp [handleReadFile, readFileEndpoint, h]

/-- A guest filesystem holding the two-byte ASCII text file "hi". -/
def fsHi : GuestFs := [("/workspace/hi.txt", GuestNode.file [104, 105])]

/-- Claim C5 witness: reading the concrete file succeeds with base64
content. -/
theorem read_file_content_base64_witness :
    handleReadFile fsHi "/workspace/hi.txt" =
      ⟨true, some (base64Encode [104, 105]), none, some 2⟩ :=
  (read_file_content_base64 fsHi "/workspace/hi.txt" [104, 105] (by decide)).1

/-- Claim C5 counterexample: the file bytes `[104, 105]` are the raw text
"hi", the file is plain text (not marked binary in any way — no such marking
exists), yet the returned content is "aGk=", the base64 encoding, not the
raw text. -/
theorem read_file_raw_text_counterexample :
    String.mk ([104, 105].map Char.ofNat) = "hi" ∧
    (readFileEndpoint fsHi "/workspace/hi.txt").success = true ∧
    (readFileEndpoint fsHi "/workspace/hi.txt").content = some "aGk=" ∧
    (readFileEndpoint fsHi "/workspace/hi.txt").content ≠ some "hi" :=
  ⟨by decide, by decide, by decide, by decide⟩

/-! Claim C9: RPC frame size limits. -/

/-- Claim C9: oversized frames are rejected on both sides of the vsock RPC.
An outgoing request larger than the 10 MiB limit is rejected by the host
before any byte is sent; a response whose declared length exceeds the limit
is rejected by the host after consuming exactly the 4-byte prefix; a request
whose declared length exceeds the limit is rejected by the guest after
consuming exactly the 4-byte prefix.  In particular neither side reads the
oversized payload. -/
theorem rpc_frame_size_rejection :
    (∀ data : List Nat, data.length > maxMessageSize →
      (vsockSendRequest data).sentBytes = [] ∧
      (vsockSendRequest data).result =
        Except.error ("Message too large: " ++ toString data.length ++
          " bytes (max " ++ toString maxMessageSize ++ ")")) ∧
    (∀ incoming : List Nat, 4 ≤ incoming.length →
      intFromBytesBE (incoming.take 4) > maxMessageSize →
      (vsockRecvResponse incoming).consumed = 4 ∧
      (vsockRecvResponse incoming).result =
        Except.error ("Response too large: " ++
          toString (intFromBytesBE (incoming.take 4)) ++
          " bytes (max " ++ toString maxMessageSize ++ ")")) ∧
    (∀ incoming : List Nat, 4 ≤ incoming.length →
      intFromBytesBE (incoming.take 4) > 10 * 1024 * 1024 →
      (agentRecvFrame incoming).consumed = 4 ∧
      (agentRecvFrame incoming).result =
        Except.error ("Message too large: " ++
          toString (intFromBytesBE (incoming.take 4)) ++ " bytes")) := by
  refine ⟨fun data h => ?_, fun incoming h4 hlen => ?_, fun incoming h4 hlen => ?_⟩
  · simp [vsockSendRequest, h]
  · have h1 : ¬ incoming.length < 4 := by omega
    simp [vsockRecvResponse, h1, hlen]
  · have h1 : ¬ incoming.length < 4 := by omega
    simp [agentRecvFrame, h1, hlen]

/-- Claim C9 witness: a 10 MiB + 1 byte request is dropped before sending,
and a frame declaring 10485761 bytes is rejected by host and guest after the
4-byte prefix. -/
theorem rpc_frame_size_rejection_witness :
    (vsockSendRequest (List.replicate 10485761 0)).sentBytes = [] ∧
    (vsockRecvResponse [0, 160, 0, 1]).consumed = 4 ∧
    (agentRecvFrame [0, 160, 0, 1]).consumed = 4 := by
  refine ⟨(rpc_frame_size_rejection.1 _ ?_).1,
    (rpc_frame_size_rejection.2.1 _ ?_ ?_).1,
    (rpc_frame_size_rejection.2.2 _ ?_ ?_).1⟩
  · rw [List.length_replicate]; decide
  · decide
  · decide
  · decide
  · decide

/-! Claim C3: teardown of failed creates. -/

/-- Creating the sandbox directory of a fresh id appends it. -/
theorem mkdir_fresh {dirs : List SandboxDir} {id : String}
    (hfresh : ∀ d ∈ dirs, d.id ≠ id) :
    mkdirSandboxDir dirs id = dirs ++ [⟨id, none⟩] := by
  unfold mkdirSandboxDir
  rw [if_neg]
  intro ⟨d, hd, he⟩
  exact hfresh d hd he

/-- Removing the directory of a fresh id from the grown list restores the
original list. -/
theorem removeDir_append_fresh {dirs : List SandboxDir} {id : String}
    (hfresh : ∀ d ∈ dirs, d.id ≠ id) (o : Option SandboxConfig) :
    removeDir id (dirs ++ [⟨id, o⟩]) = dirs := by
  induction dirs with
  | nil => simp [removeDir]
  | cons d ds ih =>
    have hd : d.id ≠ id := hfresh d (by simp)
    simp only [List.cons_append, removeDir, if_neg hd, List.append_eq]
    rw [ih (fun x hx => hfresh x (by simp [hx]))]

/-- Claim C3 (amended): a create that fails after admission never leaves a
table entry, and the disk effects depend on the failure point: a missing
kernel leaves the state untouched; a missing base rootfs or a hypervisor
socket timeout leaves the sandbox directory behind on disk; a hypervisor API
failure removes the sandbox directory. -/
theorem failed_create_teardown (cfg : ServiceConfig) (st : ManagerState)
    (template : String) (mA vA : Option Int) (wA : Option String)
    (id : String) (pid : Int) (t : String) (env : CreateEnv)
    (hfresh : ∀ d ∈ st.dirs, d.id ≠ id)
    (hvl : ¬ pyOrInt vA cfg.default_vcpu_count < cfg.min_vcpu_count)
    (hvh : ¬ pyOrInt vA cfg.default_vcpu_count > cfg.max_vcpu_count)
    (hadm : (canCreateSandbox cfg st (pyOrInt mA cfg.default_memory_mb)).1 = true) :
    ((createSandbox cfg st template mA vA wA id pid t env).2.table = st.table ∨
      ∃ r, (createSandbox cfg st template mA vA wA id pid t env).1 = Except.ok r) ∧
    (env.kernelExists = false →
      createSandbox cfg st template mA vA wA id pid t env =
        (Except.error (SbxError.fileNotFound
          ("Kernel not found: " ++ template ++ "-vmlinux.bin")), st)) ∧
    (env.kernelExists = true → env.baseRootfsExists = false →
      (createSandbox cfg st template mA vA wA id pid t env).1 =
        Except.error (SbxError.fileNotFound
          ("Base rootfs not found: " ++ template ++ "-rootfs.ext4")) ∧
      ∃ d ∈ (createSandbox cfg st template mA vA wA id pid t env).2.dirs, d.id = id) ∧
    (env.kernelExists = true → env.baseRootfsExists = true →
      env.socketReady = false →
      (createSandbox cfg st template mA vA wA id pid t env).1 =
        Except.error (SbxError.exn "Firecracker socket not ready after 5 seconds") ∧
      ∃ d ∈ (createSandbox cfg st template mA vA wA id pid t env).2.dirs, d.id = id) ∧
    (env.kernelExists = true → env.baseRootfsExists = true →
      env.socketReady = true → env.apiOk = false →
      (createSandbox cfg st template mA vA wA id pid t env).1 =
        Except.error (SbxError.exn "Failed to configure VM") ∧
      ∀ d ∈ (createSandbox cfg st template mA vA wA id pid t env).2.dirs, d.id ≠ id) := by
  refine ⟨?_, fun hk => ?_, fun hk hb => ?_, fun hk hb hs => ?_, fun hk hb hs ha => ?_⟩
  · simp only [createSandbox, if_neg hvl, if_neg hvh, hadm, if_pos]
    split_ifs <;> simp
  · simp [createSandbox, if_neg hvl, if_neg hvh, hadm, hk]
  · refine ⟨?_, ?_⟩ <;>
      simp only [createSandbox, if_neg hvl, if_neg hvh, hadm, if_pos, hk, hb,
        mkdir_fresh hfresh] <;> simp
    exact ⟨⟨id, none⟩, Or.inr rfl, rfl⟩
  · refine ⟨?_, ?_⟩ <;>
      simp only [createSandbox, if_neg hvl, if_neg hvh, hadm, if_pos, hk, hb, hs,
        mkdir_fresh hfresh] <;> simp
    exact ⟨⟨id, none⟩, Or.inr rfl, rfl⟩
  · have hrm := removeDir_append_fresh hfresh none
    refine ⟨?_, ?_⟩ <;>
      simp only [createSandbox, if_neg hvl, if_neg hvh, hadm, if_pos, hk, hb, hs, ha,
        mkdir_fresh hfresh, hrm] <;> simp
    intro d hd
    exact hfresh d hd

/-- Claim C3 witness: with the kernel artifact missing, the concrete create
fails and leaves the state fully untouched. -/
theorem failed_create_teardown_witness :
    createSandbox cfgW initialState "default" (some 512) (some 1) none
      "bbbb" 7 "t1" ⟨false, true, true, true⟩ =
      (Except.error (SbxError.fileNotFound "Kernel not found: default-vmlinux.bin"),
        initialState) :=
  (failed_create_teardown cfgW initialState "default" (some 512) (some 1) none
    "bbbb" 7 "t1" ⟨false, true, true, true⟩ (by decide) (by decide) (by decide)
    (by decide)).2.1 rfl

/-- Claim C3 counterexample: when the base rootfs is missing, the admitted
create fails, but the sandbox directory for the new id remains on disk — the
failed create is not fully torn down. -/
theorem failed_create_dir_counterexample :
    (createSandbox cfgW initialState "default" (some 512) (some 1) none
      "bbbb" 7 "t1" ⟨true, false, true, true⟩).1 =
      Except.error (SbxError.fileNotFound "Base rootfs not found: default-rootfs.ext4") ∧
    ∃ d ∈ (createSandbox cfgW initialState "default" (some 512) (some 1) none
      "bbbb" 7 "t1" ⟨true, false, true, true⟩).2.dirs, d.id = "bbbb" :=
  ⟨by decide, by decide⟩

/-! Claim C10: Python truthiness in the create defaults. -/

/-- Two strings differ when their character lists differ at some index. -/
theorem string_ne_of_data_get (s t : String) (i : Nat) (c₁ c₂ : Char)
    (h₁ : s.data[i]? = some c₁) (h₂ : t.data[i]? = some c₂) (hne : c₁ ≠ c₂) :
    s ≠ t := by
  intro h
  rw [h] at h₁
  rw [h₁] at h₂
  exact hne (Option.some.inj h₂)

/-- An index inside the left part of an append reads from the left part. -/
theorem data_getElem_append (s t : String) (i : Nat) (c : Char)
    (h : s.data[i]? = some c) : (s ++ t).data[i]? = some c := by
  rw [String.data_append]
  rw [List.getElem?_append_left (List.getElem?_eq_some.mp h).1]
  exact h

/-- "Maximum sandbox limit reached (...)" is never "Memory too low: ...". -/
theorem maxLimit_ne_memoryLow (c₁ c₂ : ServiceConfig) :
    maxLimitReason c₁ ≠ memoryLowReason c₂ := by
  refine string_ne_of_data_get _ _ 1 'a' 'e' ?_ ?_ (by decide)
  · exact data_getElem_append _ _ _ _ (data_getElem_append _ _ _ _ (by decide))
  · exact data_getElem_append _ _ _ _ (data_getElem_append _ _ _ _ (by decide))

/-- "Insufficient memory: ..." is never "Memory too low: ...". -/
theorem insufficient_ne_memoryLow (m avail : Int) (c₂ : ServiceConfig) :
    insufficientReason m avail ≠ memoryLowReason c₂ := by
  refine string_ne_of_data_get _ _ 0 'I' 'M' ?_ ?_ (by decide)
  · exact data_getElem_append _ _ _ _ (data_getElem_append _ _ _ _
      (data_getElem_append _ _ _ _ (data_getElem_append _ _ _ _ (by decide))))
  · exact data_getElem_append _ _ _ _ (data_getElem_append _ _ _ _ (by decide))

/-- "Memory too high: ..." is never "Memory too low: ...". -/
theorem memoryHigh_ne_memoryLow (c₁ c₂ : ServiceConfig) :
    memoryHighReason c₁ ≠ memoryLowReason c₂ := by
  refine string_ne_of_data_get _ _ 11 'h' 'l' ?_ ?_ (by decide)
  · exact data_getElem_append _ _ _ _ (data_getElem_append _ _ _ _ (by decide))
  · exact data_getElem_append _ _ _ _ (data_getElem_append _ _ _ _ (by decide))

/-- "vCPU count too high: ..." is never "Memory too low: ...". -/
theorem vcpuHigh_ne_memoryLow (c₁ c₂ : ServiceConfig) :
    vcpuHighReason c₁ ≠ memoryLowReason c₂ := by
  refine string_ne_of_data_get _ _ 0 'v' 'M' ?_ ?_ (by decide)
  · exact data_getElem_append _ _ _ _ (by decide)
  · exact data_getElem_append _ _ _ _ (data_getElem_append _ _ _ _ (by decide))

/-- "Maximum sandbox limit reached (...)" is never "vCPU count too low ...". -/
theorem maxLimit_ne_vcpuLow (c₁ c₂ : ServiceConfig) :
    maxLimitReason c₁ ≠ vcpuLowReason c₂ := by
  refine string_ne_of_data_get _ _ 0 'M' 'v' ?_ ?_ (by decide)
  · exact data_getElem_append _ _ _ _ (data_getElem_append _ _ _ _ (by decide))
  · exact data_getElem_append _ _ _ _ (by decide)

/-- "Insufficient memory: ..." is never "vCPU count too low ...". -/
theorem insufficient_ne_vcpuLow (m avail : Int) (c₂ : ServiceConfig) :
    insufficientReason m avail ≠ vcpuLowReason c₂ := by
  refine string_ne_of_data_get _ _ 0 'I' 'v' ?_ ?_ (by decide)
  · exact data_getElem_append _ _ _ _ (data_getElem_append _ _ _ _
      (data_getElem_append _ _ _ _ (data_getElem_append _ _ _ _ (by decide))))
  · exact data_getElem_append _ _ _ _ (by decide)

/-- "Memory too high: ..." is never "vCPU count too low ...". -/
theorem memoryHigh_ne_vcpuLow (c₁ c₂ : ServiceConfig) :
    memoryHighReason c₁ ≠ vcpuLowReason c₂ := by
  refine string_ne_of_data_get _ _ 0 'M' 'v' ?_ ?_ (by decide)
  · exact data_getElem_append _ _ _ _ (data_getElem_append _ _ _ _ (by decide))
  · exact data_getElem_append _ _ _ _ (by decide)

/-- "vCPU count too high: ..." is never "vCPU count too low ...". -/
theorem vcpuHigh_ne_vcpuLow (c₁ c₂ : ServiceConfig) :
    vcpuHighReason c₁ ≠ vcpuLowReason c₂ := by
  refine string_ne_of_data_get _ _ 15 'h' 'l' ?_ ?_ (by decide)
  · exact data_getElem_append _ _ _ _ (by decide)
  · exact data_getElem_append _ _ _ _ (by decide)

/-- Claim C10 (amended): a create called with `memory_mb = 0` or
`vcpu_count = 0` behaves exactly as a create with those arguments omitted —
the zero is silently replaced by the configured default and never itself
reaches range validation.  When the configured defaults respect the minima
(as configuration validation requires), such a call can never raise
"Memory too low" or "vCPU count too low"; with an invalid configuration
whose default lies below the minimum it still can. -/
theorem zero_defaults_truthiness (cfg : ServiceConfig) (st : ManagerState)
    (template : String) (wA : Option String) (id : String) (pid : Int)
    (t : String) (env : CreateEnv)
    (hm : cfg.min_memory_mb ≤ cfg.default_memory_mb)
    (hv : cfg.min_vcpu_count ≤ cfg.default_vcpu_count) :
    createSandbox cfg st template (some 0) (some 0) wA id pid t env =
      createSandbox cfg st template none none wA id pid t env ∧
    ∀ msg, (createSandbox cfg st template (some 0) (some 0) wA id pid t env).1 =
        Except.error (SbxError.valueError msg) →
      msg ≠ memoryLowReason cfg ∧ msg ≠ vcpuLowReason cfg := by
  constructor
  · simp [createSandbox, pyOrInt]
  · intro msg hmsg
    have h0v : pyOrInt (some 0) cfg.default_vcpu_count = cfg.default_vcpu_count := rfl
    have h0m : pyOrInt (some 0) cfg.default_memory_mb = cfg.default_memory_mb := rfl
    have hvl : ¬ pyOrInt (some 0) cfg.default_vcpu_count < cfg.min_vcpu_count := by
      rw [h0v]; omega
    simp only [createSandbox, if_neg hvl] at hmsg
    by_cases hvhi : pyOrInt (some 0) cfg.default_vcpu_count > cfg.max_vcpu_count
    · rw [if_pos hvhi] at hmsg
      simp only [Prod.fst] at hmsg
      injection hmsg with h1
      injection h1 with h2
      rw [← h2]
      exact ⟨vcpuHigh_ne_memoryLow cfg cfg, vcpuHigh_ne_vcpuLow cfg cfg⟩
    · rw [if_neg hvhi] at hmsg
      by_cases hcc : (canCreateSandbox cfg st (pyOrInt (some 0) cfg.default_memory_mb)).1 = true
      · rw [if_pos hcc] at hmsg
        split_ifs at hmsg <;> simp_all
      · rw [if_neg hcc] at hmsg
        simp only [Prod.fst] at hmsg
        injection hmsg with h1
        injection h1 with h2
        rw [← h2]
        have hlow : ¬ pyOrInt (some 0) cfg.default_memory_mb < cfg.min_memory_mb := by
          rw [h0m]; omega
        simp only [canCreateSandbox] at hcc ⊢
        split_ifs at hcc ⊢ <;>
          first
          | exact ⟨maxLimit_ne_memoryLow cfg cfg, maxLimit_ne_vcpuLow cfg cfg⟩
          | exact ⟨insufficient_ne_memoryLow _ _ cfg, insufficient_ne_vcpuLow _ _ cfg⟩
          | exact ⟨memoryHigh_ne_memoryLow cfg cfg, memoryHigh_ne_vcpuLow cfg cfg⟩
          | exact absurd (by assumption) hlow
          | exact absurd rfl hcc

/-- Claim C10 witness: with the validated configuration, an explicit zero for
both memory and vCPUs produces the same outcome as omitting them, namely a
successful create using the defaults. -/
theorem zero_defaults_truthiness_witness :
    createSandbox cfgW initialState "default" (some 0) (some 0) none
      "dddd" 9 "t2" envOk =
      createSandbox cfgW initialState "default" none none none
      "dddd" 9 "t2" envOk :=
  (zero_defaults_truthiness cfgW initialState "default" none "dddd" 9 "t2" envOk
    (by decide) (by decide)).1

/-- A configuration whose default memory (128) lies below the minimum (256);
`config.validate` would report it, but the service never calls `validate`. -/
def cfgBadDefaults : ServiceConfig :=
  { default_memory_mb := 128, min_memory_mb := 256, max_memory_mb := 2048,
    default_vcpu_count := 1, min_vcpu_count := 1, max_vcpu_count := 4,
    max_sandboxes := 20, total_memory_budget_mb := 12288 }

/-- Claim C10 counterexample: under a configuration whose default memory lies
below the minimum, a create with an explicit `memory_mb = 0` does raise
"Memory too low" — so "can never produce a Memory too low error" does not
hold unconditionally. -/
theorem zero_memory_low_counterexample :
    createSandbox cfgBadDefaults initialState "default" (some 0) (some 1) none
      "cccc" 9 "t2" envOk =
      (Except.error (SbxError.valueError "Memory too low: minimum is 256MB"),
        initialState) := by decide

/-! Claim C6: what destroy removes. -/

/-- No entry with the removed key survives `removeTable`. -/
theorem removeTable_spec (id : String) :
    ∀ t : List SandboxConfig, ∀ s ∈ removeTable id t, s.sandbox_id ≠ id := by
  intro t
  induction t with
  | nil => intro s hs; simp [removeTable] at hs
  | cons a t ih =>
    intro s hs
    by_cases ha : a.sandbox_id = id
    · simp only [removeTable, if_pos ha] at hs
      exact ih s hs
    · simp only [removeTable, if_neg ha] at hs
      rcases List.mem_cons.mp hs with hl | hl
      · rw [hl]; exact ha
      · exact ih s hl

/-- No directory with the removed name survives `removeDir`. -/
theorem removeDir_spec (id : String) :
    ∀ ds : List SandboxDir, ∀ d ∈ removeDir id ds, d.id ≠ id := by
  intro ds
  induction ds with
  | nil => intro d hd; simp [removeDir] at hd
  | cons a ds ih =>
    intro d hd
    by_cases ha : a.id = id
    · simp only [removeDir, if_pos ha] at hd
      exact ih d hd
    · simp only [removeDir, if_neg ha] at hd
      rcases List.mem_cons.mp hd with hl | hl
      · rw [hl]; exact ha
      · exact ih d hl

/-- Claim C6 (amended): after `destroy_sandbox(id)` the id is absent from
the table and from the sandboxes directory, but the snapshot directory under
`SNAPSHOTS_DIR` is left exactly as it was — snapshot files of the id are not
removed. -/
theorem destroy_removes_table_and_dir (st : ManagerState) (id : String) :
    (∀ s ∈ (destroySandbox st id).table, s.sandbox_id ≠ id) ∧
    (∀ d ∈ (destroySandbox st id).dirs, d.id ≠ id) ∧
    (destroySandbox st id).snapshots = st.snapshots :=
  ⟨removeTable_spec id st.table, removeDir_spec id st.dirs, rfl⟩

/-- Claim C6 witness: destroying the concrete paused sandbox leaves the
snapshot list untouched while the id disappears from table and disk. -/
theorem destroy_removes_table_and_dir_witness :
    (∀ s ∈ (destroySandbox stPausedW "aaaa").table, s.sandbox_id ≠ "aaaa") ∧
    (destroySandbox stPausedW "aaaa").snapshots = stPausedW.snapshots :=
  ⟨(destroy_removes_table_and_dir stPausedW "aaaa").1,
   (destroy_removes_table_and_dir stPausedW "aaaa").2.2⟩

/-- Manager state reached by create, pause, destroy of the same sandbox. -/
def stDestroyedW : ManagerState :=
  destroySandbox (pauseSandbox st1W "aaaa" true).state "aaaa"

/-- Claim C6 counterexample: after a reachable create, pause, destroy
sequence the destroyed id is gone from the table and the sandboxes
directory, yet its snapshot files (snapshot + memory under
`SNAPSHOTS_DIR/aaaa`) are still on disk — files for the id remain. -/
theorem destroy_snapshot_counterexample :
    Reachable cfgW stDestroyedW ∧
    "aaaa" ∈ stDestroyedW.snapshots ∧
    lookupSandbox stDestroyedW.table "aaaa" = none ∧
    (∀ d ∈ stDestroyedW.dirs, d.id ≠ "aaaa") := by
  refine ⟨?_, by decide, by decide, by decide⟩
  exact Reachable.destroy (Reachable.pause (Reachable.create Reachable.init
    "default" (some 512) (some 1) none "aaaa" 100 "t0" envOk
    (by intro d hd; simp [initialState] at hd)
    (by intro s hs; simp [initialState] at hs)) "aaaa" true) "aaaa"

/-! Claim C7: pause/resume frame condition. -/

/-- The snapshot directory of the paused id is present afterwards. -/
theorem mem_addSnapshotDir (snaps : List String) (id : String) :
    id ∈ addSnapshotDir snaps id := by
  unfold addSnapshotDir
  by_cases hm : id ∈ snaps
  · rw [if_pos hm]; exact hm
  · rw [if_neg hm]; simp

/-- Claim C7: for a sandbox present in the table, pause followed by resume
succeeds and the resulting record is the original one with only `status` (set
to running) and `firecracker_pid` (set to the new subprocess pid) changed:
`memory_mb`, `vcpu_count`, `workspace_id` and `vsock_cid` are preserved. -/
theorem pause_resume_preserves_fields (st : ManagerState) (id : String)
    (s : SandboxConfig) (newPid : Int)
    (h : lookupSandbox st.table id = some s) :
    (resumeSandbox (pauseSandbox st id true).state id newPid true true).result =
      Except.ok () ∧
    lookupSandbox
      (resumeSandbox (pauseSandbox st id true).state id newPid true true).state.table
      id =
      some { s with status := Status.running, firecracker_pid := some newPid } := by
  have hl1 := lookup_updateTable id (fun x => { x with status := Status.paused })
    (fun _ => rfl) st.table
  have hP : lookupSandbox (pauseSandbox st id true).state.table id =
      some { s with status := Status.paused } := by
    simp [pauseSandbox, h, hl1]
  have hsn : id ∈ (pauseSandbox st id true).state.snapshots := by
    simp [pauseSandbox, h, mem_addSnapshotDir]
  have hl2 := lookup_updateTable id
    (fun x => { x with status := Status.running, firecracker_pid := some newPid })
    (fun _ => rfl) (pauseSandbox st id true).state.table
  constructor
  · simp [resumeSandbox, hP, hsn]
  · simp [resumeSandbox, hP, hsn, hl2]

/-- Claim C7 witness: the concrete created sandbox keeps memory, vCPUs,
workspace id and vsock CID across pause and resume, with only status and pid
updated. -/
theorem pause_resume_preserves_fields_witness :
    (resumeSandbox (pauseSandbox st1W "aaaa" true).state "aaaa" 200 true true).result =
      Except.ok () ∧
    lookupSandbox
      (resumeSandbox (pauseSandbox st1W "aaaa" true).state "aaaa" 200 true true).state.table
      "aaaa" =
      some { sandbox_id := "aaaa", template := "default", memory_mb := 512,
             vcpu_count := 1, workspace_id := "aaaa", status := Status.running,
             created_at := "t0", ip_address := none, vsock_cid := some 3,
             firecracker_pid := some 200 } :=
  pause_resume_preserves_fields st1W "aaaa"
    { sandbox_id := "aaaa", template := "default", memory_mb := 512,
      vcpu_count := 1, workspace_id := "aaaa", status := Status.running,
      created_at := "t0", ip_address := none, vsock_cid := some 3,
      firecracker_pid := some 100 } 200 (by decide)

/-! Helper lemmas about the table and directory operations, used by the
reachability invariant. -/

theorem lookup_some_mem {t : List SandboxConfig} {id : String} {s : SandboxConfig}
    (h : lookupSandbox t id = some s) : s ∈ t ∧ s.sandbox_id = id := by
  induction t with
  | nil => simp [lookupSandbox] at h
  | cons a t ih =>
    by_cases ha : a.sandbox_id = id
    · simp only [lookupSandbox, if_pos ha] at h
      obtain rfl : a = s := by injection h
      exact ⟨List.mem_cons_self _ _, ha⟩
    · simp only [lookupSandbox, if_neg ha] at h
      obtain ⟨hm, he⟩ := ih h
      exact ⟨by simp [hm], he⟩

theorem lookup_none_iff {t : List SandboxConfig} {id : String} :
    lookupSandbox t id = none ↔ ∀ s ∈ t, s.sandbox_id ≠ id := by
  induction t with
  | nil => simp [lookupSandbox]
  | cons a t ih =>
    by_cases ha : a.sandbox_id = id
    · simp [lookupSandbox, if_pos ha, ha]
    · simp [lookupSandbox, if_neg ha, ha, ih]

theorem map_id_updateTable (id : String) (f : SandboxConfig → SandboxConfig)
    (hf : ∀ x, (f x).sandbox_id = x.sandbox_id) :
    ∀ t : List SandboxConfig,
      (updateTable id f t).map SandboxConfig.sandbox_id =
        t.map SandboxConfig.sandbox_id := by
  intro t
  induction t with
  | nil => rfl
  | cons a t ih =>
    by_cases ha : a.sandbox_id = id <;>
      simp [updateTable, ha, hf, ih]

theorem map_cid_updateTable (id : String) (f : SandboxConfig → SandboxConfig)
    (hf : ∀ x, (f x).vsock_cid = x.vsock_cid) :
    ∀ t : List SandboxConfig,
      (updateTable id f t).map SandboxConfig.vsock_cid =
        t.map SandboxConfig.vsock_cid := by
  intro t
  induction t with
  | nil => rfl
  | cons a t ih =>
    by_cases ha : a.sandbox_id = id <;>
      simp [updateTable, ha, hf, ih]

theorem length_updateTable (id : String) (f : SandboxConfig → SandboxConfig) :
    ∀ t : List SandboxConfig, (updateTable id f t).length = t.length := by
  intro t
  induction t with
  | nil => rfl
  | cons a t ih => by_cases ha : a.sandbox_id = id <;> simp [updateTable, ha, ih]

theorem mem_updateTable {id : String} {f : SandboxConfig → SandboxConfig}
    {t : List SandboxConfig} {x : SandboxConfig} (h : x ∈ updateTable id f t) :
    ∃ s ∈ t, (s.sandbox_id = id ∧ x = f s) ∨ (s.sandbox_id ≠ id ∧ x = s) := by
  induction t with
  | nil => simp [updateTable] at h
  | cons a t ih =>
    simp only [updateTable] at h
    rcases List.mem_cons.mp h with hl | hl
    · by_cases ha : a.sandbox_id = id
      · exact ⟨a, by simp, Or.inl ⟨ha, by rw [hl, if_pos ha]⟩⟩
      · exact ⟨a, by simp, Or.inr ⟨ha, by rw [hl, if_neg ha]⟩⟩
    · obtain ⟨s, hs, hc⟩ := ih hl
      exact ⟨s, by simp [hs], hc⟩

theorem updateTable_eq_of_absent {id : String} {f : SandboxConfig → SandboxConfig}
    {t : List SandboxConfig} (h : ∀ s ∈ t, s.sandbox_id ≠ id) :
    updateTable id f t = t := by
  induction t with
  | nil => rfl
  | cons a t ih =>
    have ha : a.sandbox_id ≠ id := h a (by simp)
    simp only [updateTable, if_neg ha]
    rw [ih (fun s hs => h s (by simp [hs]))]

theorem map_id_writeStateFile (id : String) (r : SandboxConfig) :
    ∀ ds : List SandboxDir,
      (writeStateFile id r ds).map SandboxDir.id = ds.map SandboxDir.id := by
  intro ds
  induction ds with
  | nil => rfl
  | cons a ds ih => by_cases ha : a.id = id <;> simp [writeStateFile, ha, ih]

theorem mem_writeStateFile {id : String} {r : SandboxConfig}
    {ds : List SandboxDir} {x : SandboxDir} (h : x ∈ writeStateFile id r ds) :
    ∃ d ∈ ds, (d.id = id ∧ x = ⟨d.id, some r⟩) ∨ (d.id ≠ id ∧ x = d) := by
  induction ds with
  | nil => simp [writeStateFile] at h
  | cons a ds ih =>
    simp only [writeStateFile] at h
    rcases List.mem_cons.mp h with hl | hl
    · by_cases ha : a.id = id
      · exact ⟨a, by simp, Or.inl ⟨ha, by rw [hl, if_pos ha]⟩⟩
      · exact ⟨a, by simp, Or.inr ⟨ha, by rw [hl, if_neg ha]⟩⟩
    · obtain ⟨d, hd, hc⟩ := ih hl
      exact ⟨d, by simp [hd], hc⟩

theorem mem_writeStateFile_of_mem (id : String) (r : SandboxConfig)
    {ds : List SandboxDir} {d : SandboxDir} (h : d ∈ ds) :
    (if d.id = id then (⟨d.id, some r⟩ : SandboxDir) else d) ∈ writeStateFile id r ds := by
  induction ds with
  | nil => simp at h
  | cons a ds ih =>
    rcases List.mem_cons.mp h with hl | hl
    · rw [hl]; simp only [writeStateFile]; exact List.mem_cons_self _ _
    · simp only [writeStateFile]
      exact List.mem_cons_of_mem _ (ih hl)

theorem loadable_writeStateFile {id : String} {r : SandboxConfig}
    {ds : List SandboxDir}
    (hws : ∀ d ∈ ds, d.id = id →
      ∃ r₀, d.state = some r₀ ∧ r₀.vsock_cid = r.vsock_cid) :
    (loadableOf (writeStateFile id r ds)).map SandboxConfig.vsock_cid =
      (loadableOf ds).map SandboxConfig.vsock_cid ∧
    (loadableOf (writeStateFile id r ds)).length = (loadableOf ds).length := by
  induction ds with
  | nil => exact ⟨rfl, rfl⟩
  | cons a ds ih =>
    have ih2 := ih (fun d hd => hws d (by simp [hd]))
    by_cases ha : a.id = id
    · obtain ⟨r₀, hr₀, hcid⟩ := hws a (by simp) ha
      simp only [writeStateFile, if_pos ha, loadableOf, List.filterMap_cons, hr₀]
      simp only [loadableOf] at ih2
      exact ⟨by simp [hcid, ih2.1], by simp [ih2.2]⟩
    · simp only [writeStateFile, if_neg ha, loadableOf, List.filterMap_cons]
      simp only [loadableOf] at ih2
      cases hs : a.state with
      | none => simpa [hs] using ih2
      | some r₁ => exact ⟨by simp [ih2.1], by simp [ih2.2]⟩

theorem mem_loadableOf {ds : List SandboxDir} {r : SandboxConfig} :
    r ∈ loadableOf ds ↔ ∃ d ∈ ds, d.state = some r := by
  simp [loadableOf, List.mem_filterMap]

theorem loadableOf_append (ds es : List SandboxDir) :
    loadableOf (ds ++ es) = loadableOf ds ++ loadableOf es := by
  simp [loadableOf, List.filterMap_append]

theorem loadable_ids_sublist {ds : List SandboxDir}
    (hlink : ∀ d ∈ ds, ∀ r, d.state = some r → r.sandbox_id = d.id) :
    List.Sublist ((loadableOf ds).map SandboxConfig.sandbox_id) (ds.map SandboxDir.id) := by
  induction ds with
  | nil => exact List.Sublist.refl _
  | cons a ds ih =>
    have ih2 := ih (fun d hd => hlink d (by simp [hd]))
    cases hs : a.state with
    | none =>
      simp only [loadableOf, List.filterMap_cons, hs, List.map_cons]
      exact List.Sublist.cons _ ih2
    | some r =>
      have : r.sandbox_id = a.id := hlink a (by simp) r hs
      simp only [loadableOf, List.filterMap_cons, hs, List.map_cons, this]
      exact List.Sublist.cons₂ _ ih2

theorem mem_removeTable_iff {id : String} {t : List SandboxConfig}
    {s : SandboxConfig} :
    s ∈ removeTable id t ↔ s ∈ t ∧ s.sandbox_id ≠ id := by
  induction t with
  | nil => simp [removeTable]
  | cons a t ih =>
    by_cases ha : a.sandbox_id = id
    · simp only [removeTable, if_pos ha, ih, List.mem_cons]
      constructor
      · exact fun ⟨hm, hne⟩ => ⟨Or.inr hm, hne⟩
      · rintro ⟨hl | hm, hne⟩
        · exact absurd (hl ▸ ha) hne
        · exact ⟨hm, hne⟩
    · simp only [removeTable, if_neg ha, List.mem_cons, ih]
      constructor
      · rintro (hl | ⟨hm, hne⟩)
        · exact ⟨Or.inl hl, hl ▸ ha⟩
        · exact ⟨Or.inr hm, hne⟩
      · rintro ⟨hl | hm, hne⟩
        · exact Or.inl hl
        · exact Or.inr ⟨hm, hne⟩

theorem mem_removeDir_iff {id : String} {ds : List SandboxDir} {d : SandboxDir} :
    d ∈ removeDir id ds ↔ d ∈ ds ∧ d.id ≠ id := by
  induction ds with
  | nil => simp [removeDir]
  | cons a ds ih =>
    by_cases ha : a.id = id
    · simp only [removeDir, if_pos ha, ih, List.mem_cons]
      constructor
      · exact fun ⟨hm, hne⟩ => ⟨Or.inr hm, hne⟩
      · rintro ⟨hl | hm, hne⟩
        · exact absurd (hl ▸ ha) hne
        · exact ⟨hm, hne⟩
    · simp only [removeDir, if_neg ha, List.mem_cons, ih]
      constructor
      · rintro (hl | ⟨hm, hne⟩)
        · exact ⟨Or.inl hl, hl ▸ ha⟩
        · exact ⟨Or.inr hm, hne⟩
      · rintro ⟨hl | hm, hne⟩
        · exact Or.inl hl
        · exact Or.inr ⟨hm, hne⟩

theorem removeTable_sublist (id : String) :
    ∀ t : List SandboxConfig, List.Sublist (removeTable id t) t := by
  intro t
  induction t with
  | nil => exact List.Sublist.refl _
  | cons a t ih =>
    by_cases ha : a.sandbox_id = id
    · simp only [removeTable, if_pos ha]
      exact List.Sublist.cons _ ih
    · simp only [removeTable, if_neg ha]
      exact List.Sublist.cons₂ _ ih

theorem removeDir_sublist (id : String) :
    ∀ ds : List SandboxDir, List.Sublist (removeDir id ds) ds := by
  intro ds
  induction ds with
  | nil => exact List.Sublist.refl _
  | cons a ds ih =>
    by_cases ha : a.id = id
    · simp only [removeDir, if_pos ha]
      exact List.Sublist.cons _ ih
    · simp only [removeDir, if_neg ha]
      exact List.Sublist.cons₂ _ ih

theorem loadable_removeDir_sublist (id : String) :
    ∀ ds : List SandboxDir, List.Sublist (loadableOf (removeDir id ds)) (loadableOf ds) := by
  intro ds
  induction ds with
  | nil => exact List.Sublist.refl _
  | cons a ds ih =>
    by_cases ha : a.id = id
    · simp only [removeDir, if_pos ha]
      refine List.Sublist.trans ih ?_
      cases hs : a.state with
      | none => simp [loadableOf, List.filterMap_cons, hs]
      | some r =>
        simp only [loadableOf, List.filterMap_cons, hs]
        exact List.Sublist.cons _ (List.Sublist.refl _)
    · simp only [removeDir, if_neg ha, loadableOf, List.filterMap_cons]
      cases hs : a.state with
      | none => exact ih
      | some r => exact List.Sublist.cons₂ _ ih

theorem removeTable_eq_of_absent {id : String} {t : List SandboxConfig}
    (h : ∀ s ∈ t, s.sandbox_id ≠ id) : removeTable id t = t := by
  induction t with
  | nil => rfl
  | cons a t ih =>
    have ha : a.sandbox_id ≠ id := h a (by simp)
    simp only [removeTable, if_neg ha]
    rw [ih (fun s hs => h s (by simp [hs]))]

theorem length_removeTable_of_mem {id : String} {t : List SandboxConfig}
    (hno : (t.map SandboxConfig.sandbox_id).Nodup)
    {s₀ : SandboxConfig} (hm : s₀ ∈ t) (hid : s₀.sandbox_id = id) :
    (removeTable id t).length + 1 = t.length := by
  induction t with
  | nil => simp at hm
  | cons a t ih =>
    simp only [List.map_cons, List.nodup_cons] at hno
    rcases List.mem_cons.mp hm with hl | hl
    · have ha : a.sandbox_id = id := by rw [← hl]; exact hid
      have habs : ∀ s ∈ t, s.sandbox_id ≠ id := by
        intro s hs he
        exact hno.1 (List.mem_map.mpr ⟨s, hs, he.trans ha.symm⟩)
      simp only [removeTable, if_pos ha]
      rw [removeTable_eq_of_absent habs]
      simp
    · have ha : a.sandbox_id ≠ id := by
        intro he
        exact hno.1 (List.mem_map.mpr ⟨s₀, hl, hid.trans he.symm⟩)
      simp only [removeTable, if_neg ha, List.length_cons]
      rw [← ih hno.2 hl]

theorem removeDir_eq_of_absent {id : String} {ds : List SandboxDir}
    (h : ∀ d ∈ ds, d.id ≠ id) : removeDir id ds = ds := by
  induction ds with
  | nil => rfl
  | cons a ds ih =>
    have ha : a.id ≠ id := h a (by simp)
    simp only [removeDir, if_neg ha]
    rw [ih (fun d hd => h d (by simp [hd]))]

theorem loadable_removeDir_of_none {id : String} {ds : List SandboxDir}
    (h : ∀ d ∈ ds, d.id = id → d.state = none) :
    loadableOf (removeDir id ds) = loadableOf ds := by
  induction ds with
  | nil => rfl
  | cons a ds ih =>
    have ih2 := ih (fun d hd => h d (by simp [hd]))
    by_cases ha : a.id = id
    · have hs : a.state = none := h a (by simp) ha
      simp only [removeDir, if_pos ha, loadableOf, List.filterMap_cons, hs]
      exact ih2
    · simp only [removeDir, if_neg ha, loadableOf, List.filterMap_cons]
      cases hs : a.state with
      | none => exact ih2
      | some r => simp only [loadableOf] at ih2; rw [ih2]

theorem length_loadable_removeDir_of_mem {id : String} {ds : List SandboxDir}
    (hno : (ds.map SandboxDir.id).Nodup)
    {d₀ : SandboxDir} (hm : d₀ ∈ ds) (hid : d₀.id = id)
    (hsome : d₀.state.isSome = true) :
    (loadableOf (removeDir id ds)).length + 1 = (loadableOf ds).length := by
  induction ds with
  | nil => simp at hm
  | cons a ds ih =>
    simp only [List.map_cons, List.nodup_cons] at hno
    rcases List.mem_cons.mp hm with hl | hl
    · subst hl
      have ha : d₀.id = id := hid
      have habs : ∀ d ∈ ds, d.id ≠ id := by
        intro d hd he
        exact hno.1 (List.mem_map.mpr ⟨d, hd, he.trans ha.symm⟩)
      simp only [removeDir, if_pos ha]
      rw [removeDir_eq_of_absent habs]
      obtain ⟨r, hr⟩ := Option.isSome_iff_exists.mp hsome
      simp [loadableOf, List.filterMap_cons, hr]
    · have ha : a.id ≠ id := by
        intro he
        exact hno.1 (List.mem_map.mpr ⟨d₀, hl, hid.trans he.symm⟩)
      simp only [removeDir, if_neg ha, loadableOf, List.filterMap_cons]
      have ih2 := ih hno.2 hl
      simp only [loadableOf] at ih2
      cases hs : a.state with
      | none => exact ih2
      | some r => simp only [List.length_cons, ← ih2]

theorem insertTable_fresh {t : List SandboxConfig} {r : SandboxConfig}
    (h : ∀ s ∈ t, s.sandbox_id ≠ r.sandbox_id) : insertTable t r = t ++ [r] := by
  unfold insertTable
  rw [if_neg]
  intro ⟨s, hs, he⟩
  exact h s hs he

theorem writeState_append_fresh {ds : List SandboxDir} {id : String}
    (hfresh : ∀ d ∈ ds, d.id ≠ id) (r : SandboxConfig) :
    writeStateFile id r (ds ++ [⟨id, none⟩]) = ds ++ [⟨id, some r⟩] := by
  induction ds with
  | nil => simp [writeStateFile]
  | cons d ds ih =>
    have hd : d.id ≠ id := hfresh d (by simp)
    simp only [List.cons_append, writeStateFile, if_neg hd, List.append_eq]
    rw [ih (fun x hx => hfresh x (by simp [hx]))]

theorem reloadCidStep_some {s : SandboxConfig} {c : Int} (cur : Int)
    (h : s.vsock_cid = some c) :
    reloadCidStep cur s = if c ≠ 0 ∧ c ≥ cur then c + 1 else cur := by
  simp [reloadCidStep, h]

theorem foldl_reloadCidStep_le : ∀ (l : List SandboxConfig) (cur : Int),
    cur ≤ l.foldl reloadCidStep cur := by
  intro l
  induction l with
  | nil => intro cur; exact le_refl cur
  | cons a l ih =>
    intro cur
    refine le_trans ?_ (ih (reloadCidStep cur a))
    cases hc : a.vsock_cid with
    | none => simp [reloadCidStep, hc]
    | some c =>
      rw [reloadCidStep_some cur hc]
      split_ifs with h <;> omega

theorem foldl_reloadCidStep_gt : ∀ (l : List SandboxConfig) (cur : Int)
    (s : SandboxConfig) (c : Int), s ∈ l → s.vsock_cid = some c → c ≠ 0 →
    c < l.foldl reloadCidStep cur := by
  intro l
  induction l with
  | nil => intro cur s c hm _ _; simp at hm
  | cons a l ih =>
    intro cur s c hm hc h0
    rcases List.mem_cons.mp hm with hl | hl
    · have hac : a.vsock_cid = some c := by rw [← hl]; exact hc
      have hstep : c < reloadCidStep cur a := by
        rw [reloadCidStep_some cur hac]
        split_ifs with h <;> omega
      exact lt_of_lt_of_le hstep (foldl_reloadCidStep_le l (reloadCidStep cur a))
    · exact ih (reloadCidStep cur a) s c hl hc h0

/-! The reachability invariant tying the table, the CID cursor and the disk
together. -/

/-- Invariant maintained by every admitted operation: table ids and directory
names are duplicate-free; every persisted record carries its directory's id;
an id has a table entry exactly when its directory holds a state file; a
directory's persisted CID agrees with the table's; every table and persisted
CID is `some c` with `3 ≤ c` below the cursor; table and persisted CID lists
are duplicate-free; the table and the set of state files have the same size,
bounded by `max_sandboxes`; and the cursor is at least 3. -/
structure Inv (cfg : ServiceConfig) (st : ManagerState) : Prop where
  tNo : (st.table.map SandboxConfig.sandbox_id).Nodup
  dNo : (st.dirs.map SandboxDir.id).Nodup
  link : ∀ d ∈ st.dirs, ∀ r, d.state = some r → r.sandbox_id = d.id
  corr : ∀ i : String, i ∈ st.table.map SandboxConfig.sandbox_id ↔
    ∃ d ∈ st.dirs, d.id = i ∧ d.state.isSome = true
  keys : ∀ s ∈ st.table, ∀ d ∈ st.dirs, d.id = s.sandbox_id →
    ∀ r, d.state = some r → r.vsock_cid = s.vsock_cid
  tCids : ∀ s ∈ st.table, ∃ c, s.vsock_cid = some c ∧ 3 ≤ c ∧ c < st.nextVsockCid
  dCids : ∀ d ∈ st.dirs, ∀ r, d.state = some r →
    ∃ c, r.vsock_cid = some c ∧ 3 ≤ c ∧ c < st.nextVsockCid
  tCidNo : (st.table.map SandboxConfig.vsock_cid).Nodup
  dCidNo : ((loadableOf st.dirs).map SandboxConfig.vsock_cid).Nodup
  lenEq : st.table.length = (loadableOf st.dirs).length
  cap : (st.table.length : Int) ≤ cfg.max_sandboxes
  cur3 : 3 ≤ st.nextVsockCid

theorem inv_init (cfg : ServiceConfig) (hmax : 0 ≤ cfg.max_sandboxes) :
    Inv cfg initialState := by
  refine ⟨?_, ?_, ?_, ?_, ?_, ?_, ?_, ?_, ?_, ?_, ?_, ?_⟩ <;>
    simp [initialState, loadableOf]
  exact hmax

theorem inv_set_snapshots {cfg : ServiceConfig} {st : ManagerState}
    (h : Inv cfg st) (sn : List String) : Inv cfg { st with snapshots := sn } :=
  ⟨h.tNo, h.dNo, h.link, h.corr, h.keys, h.tCids, h.dCids, h.tCidNo, h.dCidNo,
   h.lenEq, h.cap, h.cur3⟩

theorem inv_mono_cursor {cfg : ServiceConfig} {st : ManagerState}
    (h : Inv cfg st) {n : Int} (hn : st.nextVsockCid ≤ n) :
    Inv cfg { st with nextVsockCid := n } := by
  refine ⟨h.tNo, h.dNo, h.link, h.corr, h.keys, ?_, ?_, h.tCidNo, h.dCidNo,
    h.lenEq, h.cap, ?_⟩
  · intro s hs
    obtain ⟨c, hc, h3, hlt⟩ := h.tCids s hs
    refine ⟨c, hc, h3, ?_⟩
    show c < n
    omega
  · intro d hd r hr
    obtain ⟨c, hc, h3, hlt⟩ := h.dCids d hd r hr
    refine ⟨c, hc, h3, ?_⟩
    show c < n
    omega
  · show (3 : Int) ≤ n
    have := h.cur3
    omega

theorem inv_add_none_dir {cfg : ServiceConfig} {st : ManagerState}
    (h : Inv cfg st) {id : String} (hfresh : ∀ d ∈ st.dirs, d.id ≠ id) :
    Inv cfg { st with dirs := st.dirs ++ [⟨id, none⟩] } := by
  have hload : loadableOf (st.dirs ++ [(⟨id, none⟩ : SandboxDir)]) = loadableOf st.dirs := by
    rw [loadableOf_append]
    simp [loadableOf]
  refine ⟨h.tNo, ?_, ?_, ?_, ?_, h.tCids, ?_, h.tCidNo, ?_, ?_, h.cap, h.cur3⟩
  · show ((st.dirs ++ [(⟨id, none⟩ : SandboxDir)]).map SandboxDir.id).Nodup
    rw [List.map_append, List.nodup_append]
    refine ⟨h.dNo, by simp, ?_⟩
    intro a ha hb
    simp at hb
    obtain ⟨d, hd, hdi⟩ := List.mem_map.mp ha
    exact hfresh d hd (by rw [hdi, hb])
  · intro d hd r hr
    rcases List.mem_append.mp hd with hl | hl
    · exact h.link d hl r hr
    · simp at hl
      rw [hl] at hr
      simp at hr
  · intro i
    rw [show ({ st with dirs := st.dirs ++ [(⟨id, none⟩ : SandboxDir)] } : ManagerState).table
      = st.table from rfl]
    rw [h.corr i]
    constructor
    · rintro ⟨d, hd, hdi, hsome⟩
      exact ⟨d, List.mem_append.mpr (Or.inl hd), hdi, hsome⟩
    · rintro ⟨d, hd, hdi, hsome⟩
      rcases List.mem_append.mp hd with hl | hl
      · exact ⟨d, hl, hdi, hsome⟩
      · simp at hl
        rw [hl] at hsome
        simp at hsome
  · intro s hs d hd hdi r hr
    rcases List.mem_append.mp hd with hl | hl
    · exact h.keys s hs d hl hdi r hr
    · simp at hl
      rw [hl] at hr
      simp at hr
  · intro d hd r hr
    rcases List.mem_append.mp hd with hl | hl
    · exact h.dCids d hl r hr
    · simp at hl
      rw [hl] at hr
      simp at hr
  · show ((loadableOf (st.dirs ++ [(⟨id, none⟩ : SandboxDir)])).map SandboxConfig.vsock_cid).Nodup
    rw [hload]
    exact h.dCidNo
  · show st.table.length = (loadableOf (st.dirs ++ [(⟨id, none⟩ : SandboxDir)])).length
    rw [hload]
    exact h.lenEq

theorem inv_destroy {cfg : ServiceConfig} {st : ManagerState} (h : Inv cfg st)
    (id : String) : Inv cfg (destroySandbox st id) := by
  refine ⟨?_, ?_, ?_, ?_, ?_, ?_, ?_, ?_, ?_, ?_, ?_, h.cur3⟩
  · exact List.Nodup.sublist (List.Sublist.map _ (removeTable_sublist id st.table)) h.tNo
  · exact List.Nodup.sublist (List.Sublist.map _ (removeDir_sublist id st.dirs)) h.dNo
  · intro d hd r hr
    exact h.link d (mem_removeDir_iff.mp hd).1 r hr
  · intro i
    constructor
    · intro hi
      obtain ⟨s, hs, hsi⟩ := List.mem_map.mp hi
      obtain ⟨hmem, hne⟩ := mem_removeTable_iff.mp hs
      obtain ⟨d, hd, hdi, hsome⟩ := (h.corr i).mp (List.mem_map.mpr ⟨s, hmem, hsi⟩)
      refine ⟨d, mem_removeDir_iff.mpr ⟨hd, ?_⟩, hdi, hsome⟩
      rw [hdi, ← hsi]
      exact hne
    · rintro ⟨d, hd, hdi, hsome⟩
      obtain ⟨hmem, hne⟩ := mem_removeDir_iff.mp hd
      obtain ⟨s, hs, hsi⟩ := List.mem_map.mp ((h.corr i).mpr ⟨d, hmem, hdi, hsome⟩)
      refine List.mem_map.mpr ⟨s, mem_removeTable_iff.mpr ⟨hs, ?_⟩, hsi⟩
      rw [hsi, ← hdi]
      exact hne
  · intro s hs d hd hdi r hr
    exact h.keys s (mem_removeTable_iff.mp hs).1 d (mem_removeDir_iff.mp hd).1 hdi r hr
  · intro s hs
    exact h.tCids s (mem_removeTable_iff.mp hs).1
  · intro d hd r hr
    exact h.dCids d (mem_removeDir_iff.mp hd).1 r hr
  · exact List.Nodup.sublist (List.Sublist.map _ (removeTable_sublist id st.table)) h.tCidNo
  · exact List.Nodup.sublist (List.Sublist.map _ (loadable_removeDir_sublist id st.dirs)) h.dCidNo
  · show (removeTable id st.table).length = (loadableOf (removeDir id st.dirs)).length
    by_cases hex : ∃ s ∈ st.table, s.sandbox_id = id
    · obtain ⟨s₀, hs₀, hid₀⟩ := hex
      have h1 := length_removeTable_of_mem h.tNo hs₀ hid₀
      obtain ⟨d₀, hd₀, hdi₀, hsome₀⟩ :=
        (h.corr id).mp (List.mem_map.mpr ⟨s₀, hs₀, hid₀⟩)
      have h2 := length_loadable_removeDir_of_mem h.dNo hd₀ hdi₀ hsome₀
      have h3 := h.lenEq
      omega
    · push_neg at hex
      rw [removeTable_eq_of_absent hex]
      have hnone : ∀ d ∈ st.dirs, d.id = id → d.state = none := by
        intro d hd hdi
        cases hst : d.state with
        | none => rfl
        | some r =>
          have hsome : d.state.isSome = true := by rw [hst]; rfl
          obtain ⟨s, hs, hsi⟩ :=
            List.mem_map.mp ((h.corr id).mpr ⟨d, hd, hdi, hsome⟩)
          exact absurd hsi (hex s hs)
      rw [loadable_removeDir_of_none hnone]
      exact h.lenEq
  · show ((removeTable id st.table).length : Int) ≤ cfg.max_sandboxes
    have hsub := List.Sublist.length_le (removeTable_sublist id st.table)
    have hc := h.cap
    omega

theorem inv_update_core {cfg : ServiceConfig} {st : ManagerState} {id : String}
    (f : SandboxConfig → SandboxConfig)
    (hfid : ∀ x, (f x).sandbox_id = x.sandbox_id)
    (hfcid : ∀ x, (f x).vsock_cid = x.vsock_cid)
    (h : Inv cfg st) {s₀ : SandboxConfig}
    (h₀ : lookupSandbox st.table id = some s₀) (sn : List String) :
    Inv cfg { st with
      table := updateTable id f st.table,
      dirs := writeStateFile id (f s₀) st.dirs,
      snapshots := sn } := by
  obtain ⟨hs₀m, hs₀i⟩ := lookup_some_mem h₀
  have hrid : (f s₀).sandbox_id = id := by rw [hfid s₀]; exact hs₀i
  obtain ⟨d₂, hd₂, hdi₂, hsome₂⟩ :=
    (h.corr id).mp (List.mem_map.mpr ⟨s₀, hs₀m, hs₀i⟩)
  have hws : ∀ d ∈ st.dirs, d.id = id →
      ∃ r₀, d.state = some r₀ ∧ r₀.vsock_cid = (f s₀).vsock_cid := by
    intro d hd hdi
    have hdd : d = d₂ :=
      List.inj_on_of_nodup_map h.dNo hd hd₂ (by rw [hdi, hdi₂])
    obtain ⟨r₀, hr₀⟩ := Option.isSome_iff_exists.mp (hdd ▸ hsome₂)
    refine ⟨r₀, hr₀, ?_⟩
    rw [hfcid s₀]
    exact h.keys s₀ hs₀m d hd (by rw [hdi, hs₀i]) r₀ hr₀
  refine ⟨?_, ?_, ?_, ?_, ?_, ?_, ?_, ?_, ?_, ?_, ?_, h.cur3⟩
  · show ((updateTable id f st.table).map SandboxConfig.sandbox_id).Nodup
    rw [map_id_updateTable id f hfid]
    exact h.tNo
  · show ((writeStateFile id (f s₀) st.dirs).map SandboxDir.id).Nodup
    rw [map_id_writeStateFile]
    exact h.dNo
  · intro d' hd' r' hr'
    obtain ⟨d, hd, hc⟩ := mem_writeStateFile hd'
    rcases hc with ⟨hdi, heq⟩ | ⟨hne, heq⟩
    · rw [heq] at hr'
      simp only at hr'
      injection hr' with hr'
      rw [← hr', heq, hrid, hdi]
    · rw [heq]
      exact h.link d hd r' (by rw [← heq]; exact hr')
  · intro i
    show i ∈ (updateTable id f st.table).map SandboxConfig.sandbox_id ↔
      ∃ d ∈ writeStateFile id (f s₀) st.dirs, d.id = i ∧ d.state.isSome = true
    rw [map_id_updateTable id f hfid, h.corr i]
    constructor
    · rintro ⟨d, hd, hdi, hsome⟩
      by_cases hcase : d.id = id
      · refine ⟨⟨d.id, some (f s₀)⟩, ?_, hdi, rfl⟩
        have := mem_writeStateFile_of_mem id (f s₀) hd
        rw [if_pos hcase] at this
        exact this
      · refine ⟨d, ?_, hdi, hsome⟩
        have := mem_writeStateFile_of_mem id (f s₀) hd
        rw [if_neg hcase] at this
        exact this
    · rintro ⟨d', hd', hdi', hsome'⟩
      obtain ⟨d, hd, hc⟩ := mem_writeStateFile hd'
      rcases hc with ⟨hdi, heq⟩ | ⟨hne, heq⟩
      · refine ⟨d₂, hd₂, ?_, hsome₂⟩
        rw [hdi₂, ← hdi]
        rw [heq] at hdi'
        exact hdi'
      · refine ⟨d, hd, ?_, ?_⟩
        · rw [heq] at hdi'
          exact hdi'
        · rw [heq] at hsome'
          exact hsome'
  · intro s' hs' d' hd' hdi' r' hr'
    obtain ⟨s, hsm, scase⟩ := mem_updateTable hs'
    have hsid : s'.sandbox_id = s.sandbox_id := by
      rcases scase with ⟨_, rfl⟩ | ⟨_, rfl⟩
      · exact hfid s
      · rfl
    obtain ⟨d, hdm, dcase⟩ := mem_writeStateFile hd'
    rcases dcase with ⟨hdi, heq⟩ | ⟨hne, heq⟩
    · rw [heq] at hr'
      simp only at hr'
      injection hr' with hr'
      have hsidid : s.sandbox_id = id := by
        rw [← hsid]
        rw [heq] at hdi'
        simp only at hdi'
        rw [← hdi', hdi]
      have hss : s = s₀ := List.inj_on_of_nodup_map h.tNo hsm hs₀m
        (by rw [hsidid, hs₀i])
      rcases scase with ⟨_, rfl⟩ | ⟨hno, rfl⟩
      · rw [← hr', hss]
      · exact absurd hsidid hno
    · have hdid : d.id = s.sandbox_id := by
        rw [← hsid]
        rw [heq] at hdi'
        exact hdi'
      have hsnid : s.sandbox_id ≠ id := by
        intro he
        exact hne (hdid.trans he)
      have hr'' : d.state = some r' := by rw [heq] at hr'; exact hr'
      have := h.keys s hsm d hdm hdid r' hr''
      rcases scase with ⟨hyes, rfl⟩ | ⟨_, rfl⟩
      · exact absurd hyes hsnid
      · exact this
  · intro s' hs'
    obtain ⟨s, hsm, scase⟩ := mem_updateTable hs'
    have hcid : s'.vsock_cid = s.vsock_cid := by
      rcases scase with ⟨_, rfl⟩ | ⟨_, rfl⟩
      · exact hfcid s
      · rfl
    obtain ⟨c, hc, h3, hlt⟩ := h.tCids s hsm
    exact ⟨c, by rw [hcid]; exact hc, h3, hlt⟩
  · intro d' hd' r' hr'
    obtain ⟨d, hdm, dcase⟩ := mem_writeStateFile hd'
    rcases dcase with ⟨hdi, heq⟩ | ⟨hne, heq⟩
    · rw [heq] at hr'
      simp only at hr'
      injection hr' with hr'
      obtain ⟨c, hc, h3, hlt⟩ := h.tCids s₀ hs₀m
      refine ⟨c, ?_, h3, hlt⟩
      rw [← hr', hfcid s₀]
      exact hc
    · exact h.dCids d hdm r' (by rw [← heq]; exact hr')
  · show ((updateTable id f st.table).map SandboxConfig.vsock_cid).Nodup
    rw [map_cid_updateTable id f hfcid]
    exact h.tCidNo
  · show ((loadableOf (writeStateFile id (f s₀) st.dirs)).map SandboxConfig.vsock_cid).Nodup
    rw [(loadable_writeStateFile hws).1]
    exact h.dCidNo
  · show (updateTable id f st.table).length =
      (loadableOf (writeStateFile id (f s₀) st.dirs)).length
    rw [length_updateTable, (loadable_writeStateFile hws).2]
    exact h.lenEq
  · show ((updateTable id f st.table).length : Int) ≤ cfg.max_sandboxes
    rw [length_updateTable]
    exact h.cap

theorem inv_pause {cfg : ServiceConfig} {st : ManagerState} (h : Inv cfg st)
    (id : String) (hypOk : Bool) : Inv cfg (pauseSandbox st id hypOk).state := by
  cases h₀ : lookupSandbox st.table id with
  | none =>
    have : (pauseSandbox st id hypOk).state = st := by simp [pauseSandbox, h₀]
    rw [this]
    exact h
  | some s₀ =>
    cases hypOk with
    | false =>
      have : (pauseSandbox st id false).state =
          { st with snapshots := addSnapshotDir st.snapshots id } := by
        simp [pauseSandbox, h₀]
      rw [this]
      exact inv_set_snapshots h _
    | true =>
      have hl : lookupSandbox
          (updateTable id (fun x => { x with status := Status.paused }) st.table) id =
          some { s₀ with status := Status.paused } := by
        rw [lookup_updateTable id (fun x => { x with status := Status.paused })
          (fun _ => rfl), h₀]
        rfl
      have hstate : (pauseSandbox st id true).state =
          { st with
            table := updateTable id (fun x => { x with status := Status.paused }) st.table,
            dirs := writeStateFile id { s₀ with status := Status.paused } st.dirs,
            snapshots := addSnapshotDir st.snapshots id } := by
        simp [pauseSandbox, h₀, hl]
      rw [hstate]
      exact inv_update_core (fun x => { x with status := Status.paused })
        (fun _ => rfl) (fun _ => rfl) h h₀ _

theorem inv_resume {cfg : ServiceConfig} {st : ManagerState} (h : Inv cfg st)
    (id : String) (newPid : Int) (socketReady apiOk : Bool) :
    Inv cfg (resumeSandbox st id newPid socketReady apiOk).state := by
  cases h₀ : lookupSandbox st.table id with
  | none =>
    have : (resumeSandbox st id newPid socketReady apiOk).state = st := by
      simp [resumeSandbox, h₀]
    rw [this]
    exact h
  | some s₀ =>
    by_cases hsn : id ∈ st.snapshots
    · cases socketReady with
      | false =>
        have : (resumeSandbox st id newPid false apiOk).state = st := by
          simp [resumeSandbox, h₀, hsn]
        rw [this]
        exact h
      | true =>
        cases apiOk with
        | false =>
          have : (resumeSandbox st id newPid true false).state = st := by
            simp [resumeSandbox, h₀, hsn]
          rw [this]
          exact h
        | true =>
          have hl : lookupSandbox
              (updateTable id (fun x =>
                { x with status := Status.running, firecracker_pid := some newPid })
                st.table) id =
              some { s₀ with status := Status.running, firecracker_pid := some newPid } := by
            rw [lookup_updateTable id (fun x =>
              { x with status := Status.running, firecracker_pid := some newPid })
              (fun _ => rfl), h₀]
            rfl
          have hstate : (resumeSandbox st id newPid true true).state =
              { st with
                table := updateTable id (fun x =>
                  { x with status := Status.running, firecracker_pid := some newPid })
                  st.table,
                dirs := writeStateFile id
                  { s₀ with status := Status.running, firecracker_pid := some newPid }
                  st.dirs } := by
            simp [resumeSandbox, h₀, hsn, hl]
          rw [hstate]
          exact inv_update_core (fun x =>
            { x with status := Status.running, firecracker_pid := some newPid })
            (fun _ => rfl) (fun _ => rfl) h h₀ _
    · have : (resumeSandbox st id newPid socketReady apiOk).state = st := by
        simp [resumeSandbox, h₀, hsn]
      rw [this]
      exact h

theorem inv_add_record {cfg : ServiceConfig} {st : ManagerState} (h : Inv cfg st)
    {id : String} {rec : SandboxConfig}
    (hfreshD : ∀ d ∈ st.dirs, d.id ≠ id)
    (hfreshT : ∀ s ∈ st.table, s.sandbox_id ≠ id)
    (hrid : rec.sandbox_id = id)
    (hrcid : rec.vsock_cid = some st.nextVsockCid)
    (hcap : (st.table.length : Int) + 1 ≤ cfg.max_sandboxes) :
    Inv cfg { table := st.table ++ [rec], nextVsockCid := st.nextVsockCid + 1,
              dirs := st.dirs ++ [⟨id, some rec⟩], snapshots := st.snapshots } := by
  have hloadapp : loadableOf (st.dirs ++ [(⟨id, some rec⟩ : SandboxDir)]) =
      loadableOf st.dirs ++ [rec] := by
    rw [loadableOf_append]
    rfl
  refine ⟨?_, ?_, ?_, ?_, ?_, ?_, ?_, ?_, ?_, ?_, ?_, ?_⟩
  · show ((st.table ++ [rec]).map SandboxConfig.sandbox_id).Nodup
    rw [List.map_append, List.nodup_append]
    refine ⟨h.tNo, by simp, ?_⟩
    intro a ha hb
    simp [hrid] at hb
    obtain ⟨s, hs, hsi⟩ := List.mem_map.mp ha
    exact hfreshT s hs (by rw [hsi, hb])
  · show ((st.dirs ++ [(⟨id, some rec⟩ : SandboxDir)]).map SandboxDir.id).Nodup
    rw [List.map_append, List.nodup_append]
    refine ⟨h.dNo, by simp, ?_⟩
    intro a ha hb
    simp at hb
    obtain ⟨d, hd, hdi⟩ := List.mem_map.mp ha
    exact hfreshD d hd (by rw [hdi, hb])
  · intro d hd r hr
    rcases List.mem_append.mp hd with hl | hl
    · exact h.link d hl r hr
    · simp at hl
      rw [hl] at hr
      simp only at hr
      injection hr with hr
      rw [hl, ← hr, hrid]
  · intro i
    show i ∈ (st.table ++ [rec]).map SandboxConfig.sandbox_id ↔
      ∃ d ∈ st.dirs ++ [(⟨id, some rec⟩ : SandboxDir)], d.id = i ∧ d.state.isSome = true
    rw [List.map_append, List.mem_append]
    constructor
    · intro hi
      rcases hi with hi | hi
      · obtain ⟨d, hd, hdi, hsome⟩ := (h.corr i).mp hi
        exact ⟨d, List.mem_append.mpr (Or.inl hd), hdi, hsome⟩
      · simp [hrid] at hi
        exact ⟨⟨id, some rec⟩, List.mem_append.mpr (Or.inr (by simp)), by rw [hi], rfl⟩
    · rintro ⟨d, hd, hdi, hsome⟩
      rcases List.mem_append.mp hd with hl | hl
      · exact Or.inl ((h.corr i).mpr ⟨d, hl, hdi, hsome⟩)
      · simp at hl
        refine Or.inr (by simp [hrid, ← hdi, hl])
  · intro s hs d hd hdi r hr
    rcases List.mem_append.mp hs with hsl | hsl <;>
      rcases List.mem_append.mp hd with hdl | hdl
    · exact h.keys s hsl d hdl hdi r hr
    · simp at hdl
      exact absurd (by rw [← hdi, hdl] : s.sandbox_id = id).symm
        (fun he => hfreshT s hsl he.symm)
    · simp at hsl
      exact absurd (by rw [hdi, hsl, hrid] : d.id = id) (hfreshD d hdl)
    · simp at hsl hdl
      rw [hdl] at hr
      simp only at hr
      injection hr with hr
      rw [← hr, hsl]
  · intro s hs
    rcases List.mem_append.mp hs with hl | hl
    · obtain ⟨c, hc, h3, hlt⟩ := h.tCids s hl
      refine ⟨c, hc, h3, ?_⟩
      show c < st.nextVsockCid + 1
      omega
    · simp at hl
      refine ⟨st.nextVsockCid, by rw [hl]; exact hrcid, h.cur3, ?_⟩
      show st.nextVsockCid < st.nextVsockCid + 1
      omega
  · intro d hd r hr
    rcases List.mem_append.mp hd with hl | hl
    · obtain ⟨c, hc, h3, hlt⟩ := h.dCids d hl r hr
      refine ⟨c, hc, h3, ?_⟩
      show c < st.nextVsockCid + 1
      omega
    · simp at hl
      rw [hl] at hr
      simp only at hr
      injection hr with hr
      refine ⟨st.nextVsockCid, by rw [← hr]; exact hrcid, h.cur3, ?_⟩
      show st.nextVsockCid < st.nextVsockCid + 1
      omega
  · show ((st.table ++ [rec]).map SandboxConfig.vsock_cid).Nodup
    rw [List.map_append, List.nodup_append]
    refine ⟨h.tCidNo, by simp, ?_⟩
    intro a ha hb
    simp [hrcid] at hb
    obtain ⟨s, hs, hsc⟩ := List.mem_map.mp ha
    obtain ⟨c, hc, _, hlt⟩ := h.tCids s hs
    rw [hsc] at hc
    rw [hb] at hc
    injection hc with hc
    omega
  · show ((loadableOf (st.dirs ++ [(⟨id, some rec⟩ : SandboxDir)])).map
      SandboxConfig.vsock_cid).Nodup
    rw [hloadapp, List.map_append, List.nodup_append]
    refine ⟨h.dCidNo, by simp, ?_⟩
    intro a ha hb
    simp [hrcid] at hb
    obtain ⟨r, hrm, hrc⟩ := List.mem_map.mp ha
    obtain ⟨d, hd, hds⟩ := mem_loadableOf.mp hrm
    obtain ⟨c, hc, _, hlt⟩ := h.dCids d hd r hds
    rw [hrc] at hc
    rw [hb] at hc
    injection hc with hc
    omega
  · show (st.table ++ [rec]).length =
      (loadableOf (st.dirs ++ [(⟨id, some rec⟩ : SandboxDir)])).length
    rw [hloadapp]
    simp [h.lenEq]
  · show ((st.table ++ [rec]).length : Int) ≤ cfg.max_sandboxes
    rw [List.length_append]
    simpa using hcap
  · show (3 : Int) ≤ st.nextVsockCid + 1
    have := h.cur3
    omega

theorem canCreate_true_count {cfg : ServiceConfig} {st : ManagerState} {m : Int}
    (h : (canCreateSandbox cfg st m).1 = true) :
    (st.table.length : Int) < cfg.max_sandboxes := by
  by_contra hge
  push_neg at hge
  have hfalse : (canCreateSandbox cfg st m).1 = false := by
    simp only [canCreateSandbox, activeSandboxCount]
    rw [if_pos (show (st.table.length : Int) ≥ cfg.max_sandboxes from hge)]
  rw [hfalse] at h
  exact absurd h (by decide)

theorem inv_createSandbox {cfg : ServiceConfig} {st : ManagerState} (h : Inv cfg st)
    (template : String) (mA vA : Option Int) (wA : Option String)
    (freshId : String) (pid : Int) (createdAt : String) (env : CreateEnv)
    (hfreshD : ∀ d ∈ st.dirs, d.id ≠ freshId)
    (hfreshT : ∀ s ∈ st.table, s.sandbox_id ≠ freshId) :
    Inv cfg (createSandbox cfg st template mA vA wA freshId pid createdAt env).2 := by
  simp only [createSandbox]
  split_ifs with h1 h2 h3 h4 h5 h6 h7
  · exact h
  · exact h
  · exact h
  · show Inv cfg { st with dirs := mkdirSandboxDir st.dirs freshId }
    rw [mkdir_fresh hfreshD]
    exact inv_add_none_dir h hfreshD
  · show Inv cfg { st with
      dirs := mkdirSandboxDir st.dirs freshId,
      nextVsockCid := st.nextVsockCid + 1 }
    rw [mkdir_fresh hfreshD]
    exact inv_mono_cursor (inv_add_none_dir h hfreshD)
      (by show st.nextVsockCid ≤ st.nextVsockCid + 1; omega)
  · show Inv cfg { st with
      dirs := removeDir freshId (mkdirSandboxDir st.dirs freshId),
      nextVsockCid := st.nextVsockCid + 1 }
    rw [mkdir_fresh hfreshD, removeDir_append_fresh hfreshD]
    exact inv_mono_cursor h (by show st.nextVsockCid ≤ st.nextVsockCid + 1; omega)
  · show Inv cfg { st with
      dirs := writeStateFile freshId
        { sandbox_id := freshId, template := template,
          memory_mb := pyOrInt mA cfg.default_memory_mb,
          vcpu_count := pyOrInt vA cfg.default_vcpu_count,
          workspace_id := pyOrStr wA freshId, status := Status.running,
          created_at := createdAt, ip_address := none,
          vsock_cid := some st.nextVsockCid, firecracker_pid := some pid }
        (mkdirSandboxDir st.dirs freshId),
      nextVsockCid := st.nextVsockCid + 1,
      table := insertTable st.table
        { sandbox_id := freshId, template := template,
          memory_mb := pyOrInt mA cfg.default_memory_mb,
          vcpu_count := pyOrInt vA cfg.default_vcpu_count,
          workspace_id := pyOrStr wA freshId, status := Status.running,
          created_at := createdAt, ip_address := none,
          vsock_cid := some st.nextVsockCid, firecracker_pid := some pid } }
    rw [mkdir_fresh hfreshD, writeState_append_fresh hfreshD,
      insertTable_fresh (fun s hs => hfreshT s hs)]
    have hcap : (st.table.length : Int) + 1 ≤ cfg.max_sandboxes := by
      have := canCreate_true_count h3
      omega
    exact inv_add_record h hfreshD hfreshT rfl rfl hcap
  · exact h

theorem inv_reload {cfg : ServiceConfig} {st : ManagerState} (h : Inv cfg st) :
    Inv cfg (reloadState st) := by
  have hids : ((loadableOf st.dirs).map
      (fun r => { r with status := Status.stopped })).map SandboxConfig.sandbox_id =
      (loadableOf st.dirs).map SandboxConfig.sandbox_id := by
    rw [List.map_map]
    rfl
  have hcids : ((loadableOf st.dirs).map
      (fun r => { r with status := Status.stopped })).map SandboxConfig.vsock_cid =
      (loadableOf st.dirs).map SandboxConfig.vsock_cid := by
    rw [List.map_map]
    rfl
  refine ⟨?_, h.dNo, h.link, ?_, ?_, ?_, ?_, ?_, h.dCidNo, ?_, ?_, ?_⟩
  · show (((loadableOf st.dirs).map
      (fun r => { r with status := Status.stopped })).map SandboxConfig.sandbox_id).Nodup
    rw [hids]
    exact List.Nodup.sublist (loadable_ids_sublist h.link) h.dNo
  · intro i
    show i ∈ ((loadableOf st.dirs).map
        (fun r => { r with status := Status.stopped })).map SandboxConfig.sandbox_id ↔
      ∃ d ∈ st.dirs, d.id = i ∧ d.state.isSome = true
    rw [hids]
    constructor
    · intro hi
      obtain ⟨r, hrm, hri⟩ := List.mem_map.mp hi
      obtain ⟨d, hd, hds⟩ := mem_loadableOf.mp hrm
      refine ⟨d, hd, ?_, by rw [hds]; rfl⟩
      rw [← h.link d hd r hds, hri]
    · rintro ⟨d, hd, hdi, hsome⟩
      obtain ⟨r, hr⟩ := Option.isSome_iff_exists.mp hsome
      refine List.mem_map.mpr ⟨r, mem_loadableOf.mpr ⟨d, hd, hr⟩, ?_⟩
      rw [h.link d hd r hr, hdi]
  · intro s' hs' d hd hdi r' hr'
    obtain ⟨r, hrm, hre⟩ := List.mem_map.mp hs'
    obtain ⟨d₀, hd₀, hds₀⟩ := mem_loadableOf.mp hrm
    have hd₀i : d₀.id = s'.sandbox_id := by
      rw [← hre, ← h.link d₀ hd₀ r hds₀]
    have hdd : d = d₀ :=
      List.inj_on_of_nodup_map h.dNo hd hd₀ (by rw [hdi, hd₀i])
    have hr'' : r' = r := by
      rw [hdd] at hr'
      rw [hds₀] at hr'
      injection hr' with he
      exact he.symm
    rw [hr'', ← hre]
  · intro s' hs'
    obtain ⟨r, hrm, hre⟩ := List.mem_map.mp hs'
    obtain ⟨d, hd, hds⟩ := mem_loadableOf.mp hrm
    obtain ⟨c, hc, h3, _⟩ := h.dCids d hd r hds
    have hcid : s'.vsock_cid = some c := by rw [← hre]; exact hc
    refine ⟨c, hcid, h3, ?_⟩
    exact foldl_reloadCidStep_gt _ 3 s' c hs' hcid (by omega)
  · intro d hd r hr
    obtain ⟨c, hc, h3, _⟩ := h.dCids d hd r hr
    have hmem : ({ r with status := Status.stopped } : SandboxConfig) ∈
        (loadableOf st.dirs).map (fun x => { x with status := Status.stopped }) :=
      List.mem_map.mpr ⟨r, mem_loadableOf.mpr ⟨d, hd, hr⟩, rfl⟩
    refine ⟨c, hc, h3, ?_⟩
    exact foldl_reloadCidStep_gt _ 3 _ c hmem hc (by omega)
  · show (((loadableOf st.dirs).map
      (fun r => { r with status := Status.stopped })).map SandboxConfig.vsock_cid).Nodup
    rw [hcids]
    exact h.dCidNo
  · simp only [reloadState]
    rw [List.length_map]
  · simp only [reloadState]
    rw [List.length_map, ← h.lenEq]
    exact h.cap
  · exact foldl_reloadCidStep_le _ 3

/-- Every reachable state satisfies the invariant (for a configuration whose
`max_sandboxes` is nonnegative, as `config.validate` requires). -/
theorem reachable_inv {cfg : ServiceConfig} {st : ManagerState}
    (h : Reachable cfg st) (hmax : 0 ≤ cfg.max_sandboxes) : Inv cfg st := by
  induction h with
  | init => exact inv_init cfg hmax
  | create _ template mA vA wA freshId pid createdAt env hfreshD hfreshT ih =>
    exact inv_createSandbox ih template mA vA wA freshId pid createdAt env hfreshD hfreshT
  | pause _ id hypOk ih => exact inv_pause ih id hypOk
  | resume _ id newPid socketReady apiOk ih => exact inv_resume ih id newPid socketReady apiOk
  | destroy _ id ih => exact inv_destroy ih id
  | reload _ ih => exact inv_reload ih

/-! Claim C2: the admission count. -/

/-- Claim C2 (amended): the count `can_create_sandbox` compares against
`max_sandboxes` is `len(self._active_sandboxes)` — the total number of table
entries, stopped entries included.  In every reachable state under a
configuration with `max_sandboxes ≥ 0`, that total never exceeds
`max_sandboxes`, and hence the running/paused live count (which is at most
the total) never exceeds it either. -/
theorem table_count_bounded {cfg : ServiceConfig} {st : ManagerState}
    (h : Reachable cfg st) (hmax : 0 ≤ cfg.max_sandboxes) :
    liveCount st ≤ activeSandboxCount st ∧
    (activeSandboxCount st : Int) ≤ cfg.max_sandboxes ∧
    (liveCount st : Int) ≤ cfg.max_sandboxes := by
  have hInv := reachable_inv h hmax
  have hle : liveCount st ≤ activeSandboxCount st := List.length_filter_le _ _
  have hc : (st.table.length : Int) ≤ cfg.max_sandboxes := hInv.cap
  have he : activeSandboxCount st = st.table.length := rfl
  exact ⟨hle, by omega, by omega⟩

/-- Claim C2 witness: the bound at the concrete one-create state. -/
theorem table_count_bounded_witness :
    liveCount st1W ≤ activeSandboxCount st1W ∧
    (activeSandboxCount st1W : Int) ≤ cfgW.max_sandboxes ∧
    (liveCount st1W : Int) ≤ cfgW.max_sandboxes :=
  table_count_bounded (Reachable.create Reachable.init "default" (some 512)
    (some 1) none "aaaa" 100 "t0" envOk
    (by intro d hd; simp [initialState] at hd)
    (by intro s hs; simp [initialState] at hs)) (by decide)

/-- Manager state after a create followed by a daemon restart: the reloaded
entry is stopped. -/
def stReloadedW : ManagerState := reloadState st1W

/-- Claim C2 counterexample: in the reachable state with one stopped
sandbox, the live (running/paused) count is 0, strictly below
`max_sandboxes = 1`, yet admission rejects with "Maximum sandbox limit
reached (1)" — so the count compared against `max_sandboxes` is not the
number of running/paused entries; stopped entries do count. -/
theorem live_count_admission_counterexample :
    Reachable cfgW stReloadedW ∧
    liveCount stReloadedW = 0 ∧
    (0 : Int) < cfgW.max_sandboxes ∧
    canCreateSandbox cfgW stReloadedW 512 =
      (false, "Maximum sandbox limit reached (1)") := by
  refine ⟨?_, by decide, by decide, by decide⟩
  exact Reachable.reload (Reachable.create Reachable.init "default" (some 512)
    (some 1) none "aaaa" 100 "t0" envOk
    (by intro d hd; simp [initialState] at hd)
    (by intro s hs; simp [initialState] at hs))

/-! Claim C8: vsock CID allocation. -/

/-- `SandboxManager._allocate_vsock_cid`: hands out the cursor and bumps it. -/
def allocateVsockCid (st : ManagerState) : Int × ManagerState :=
  (st.nextVsockCid, { st with nextVsockCid := st.nextVsockCid + 1 })

/-- Claim C8: in every reachable state all vsock CIDs in the table are
distinct and at least 3; the next allocation hands out a CID different from
every CID in the table and advances the cursor by one (monotone allocation,
no reuse within a process lifetime); and after a startup reload the cursor
is strictly greater than every reloaded sandbox's CID. -/
theorem vsock_cid_invariants {cfg : ServiceConfig} {st : ManagerState}
    (h : Reachable cfg st) (hmax : 0 ≤ cfg.max_sandboxes) :
    (st.table.map SandboxConfig.vsock_cid).Nodup ∧
    (∀ s ∈ st.table, ∃ c, s.vsock_cid = some c ∧ 3 ≤ c) ∧
    (∀ s ∈ st.table, s.vsock_cid ≠ some (allocateVsockCid st).1) ∧
    (allocateVsockCid st).2.nextVsockCid = (allocateVsockCid st).1 + 1 ∧
    (∀ s ∈ (reloadState st).table, ∀ c, s.vsock_cid = some c →
      c < (reloadState st).nextVsockCid) := by
  have hInv := reachable_inv h hmax
  refine ⟨hInv.tCidNo, ?_, ?_, rfl, ?_⟩
  · intro s hs
    obtain ⟨c, hc, h3, _⟩ := hInv.tCids s hs
    exact ⟨c, hc, h3⟩
  · intro s hs he
    obtain ⟨c, hc, _, hlt⟩ := hInv.tCids s hs
    rw [hc] at he
    injection he with he
    have halloc : (allocateVsockCid st).1 = st.nextVsockCid := rfl
    omega
  · intro s hs c hc
    have hre := inv_reload hInv
    obtain ⟨c2, hc2, _, hlt⟩ := hre.tCids s hs
    rw [hc] at hc2
    injection hc2 with hc2
    omega

/-- Claim C8 witness: the CID facts at the concrete one-create state. -/
theorem vsock_cid_invariants_witness :
    (st1W.table.map SandboxConfig.vsock_cid).Nodup ∧
    (∀ s ∈ st1W.table, ∃ c, s.vsock_cid = some c ∧ 3 ≤ c) ∧
    (∀ s ∈ st1W.table, s.vsock_cid ≠ some (allocateVsockCid st1W).1) ∧
    (allocateVsockCid st1W).2.nextVsockCid = (allocateVsockCid st1W).1 + 1 ∧
    (∀ s ∈ (reloadState st1W).table, ∀ c, s.vsock_cid = some c →
      c < (reloadState st1W).nextVsockCid) :=
  vsock_cid_invariants (Reachable.create Reachable.init "default" (some 512)
    (some 1) none "aaaa" 100 "t0" envOk
    (by intro d hd; simp [initialState] at hd)
    (by intro s hs; simp [initialState] at hs)) (by decide)

end Workspace
